import Mathlib

/-!
# Verification of the offline-first expense tracker's sync-and-budget core

Shallow embedding of the repository's core (Dexie-backed local store in
`src/lib/database.ts`, the `SyncService` in `src/lib/sync-service.ts`, the
`ExpenseService` in `src/lib/expense-service.ts`, and the `BudgetService` in
`src/lib/budget-service.ts`) together with theorems settling the frozen
claims about it.

Modelling conventions:
* JavaScript `number` amounts, thresholds and percentages are rationals (`ℚ`).
* Instants (`Date` values / ISO strings such as `createdAt`) are rationals
  measured in hours; calendar days are mapped to day numbers with the
  standard civil-from-days correspondence, so a calendar date contributes
  `24 * dayNumber` hours.  The runtime timezone offset is taken to be zero,
  so `new Date(y, m, d)` and `new Date("YYYY-MM-DD")` denote the same
  midnight instant.
* A Dexie table is a list of records; the primary-key index makes ids unique,
  which the model expresses by `add` failing on a duplicate id.  Fallible
  store writes return `(state, ok)`; a thrown exception corresponds to
  `ok = false`, and mutations performed before the throw persist, exactly as
  in the JavaScript code.
* `async`/`await` sequencing is modelled by explicit state passing (the code
  runs one logical actor; every operation here is atomic between `await`s).
-/

namespace ExpenseTracker

/-! ## Calendar arithmetic (model of the JavaScript `Date` runtime) -/

/-- Day number of a civil date (days since 1970-01-01, Gregorian calendar),
the standard days-from-civil algorithm.  The formula is linear in `d`, so an
out-of-range day-of-month rolls over exactly as `Date.setDate` does. -/
def daysFromCivil (y m d : Int) : Int :=
  let y' := if m ≤ 2 then y - 1 else y
  let era := Int.fdiv y' 400
  let yoe := y' - era * 400
  let mp := Int.emod (m + 9) 12
  let doy := Int.fdiv (153 * mp + 2) 5 + d - 1
  let doe := yoe * 365 + Int.fdiv yoe 4 - Int.fdiv yoe 100 + doy
  era * 146097 + doe - 719468

/-- Model of the JavaScript constructor `new Date(y, jsm, d)` (month
`jsm` 0-based, out-of-range month and day roll over), returning the day
number of the resulting local midnight. -/
def jsMakeDay (y jsm d : Int) : Int :=
  daysFromCivil (y + Int.fdiv jsm 12) (Int.emod jsm 12 + 1) d

/-- Model of JavaScript `Date.prototype.getDay`: 1970-01-01 was a Thursday. -/
def jsGetDay (dayNumber : Int) : Int :=
  Int.emod (dayNumber + 4) 7

/-- A calendar date, as carried by an expense's `date` field
(`"YYYY-MM-DD"` in the source). -/
structure Date where
  y : Int
  m : Int
  d : Int
deriving Repr, DecidableEq

/-- Day number of a calendar date. -/
def Date.dayNumber (dt : Date) : Int :=
  daysFromCivil dt.y dt.m dt.d

/-- Instants are rationals measured in hours since the epoch. -/
abbrev Time := ℚ

/-- The instant denoted by `new Date("YYYY-MM-DD")`: midnight of that day. -/
def Date.ts (dt : Date) : Time :=
  (24 * dt.dayNumber : Int)

/-- An instant together with its calendar components, as observed through
`getFullYear`/`getMonth`/`getDate` on a JavaScript `Date`;
`hour` is the time of day in hours (`0 ≤ hour < 24` for real clock values,
not enforced). -/
structure DateTime where
  date : Date
  hour : ℚ
deriving Repr, DecidableEq

/-- The timestamp of a `DateTime`, in hours. -/
def DateTime.ts (n : DateTime) : Time :=
  n.date.ts + n.hour

/-- Model of JavaScript `Math.round` (round half toward positive infinity). -/
def jsRound (q : ℚ) : Int :=
  ⌊q + 1 / 2⌋

/-! ## Data model (`src/types/expense.ts`, `src/types/budget.ts`) -/

/-- `Expense` record (`src/types/expense.ts`). -/
structure Expense where
  id : String
  userId : String
  amount : ℚ
  category : String
  descr : String
  date : Date
  createdAt : Time
  updatedAt : Time
  synced : Bool
deriving Repr, DecidableEq

/-- Budget period (`'daily' | 'weekly' | 'monthly' | 'yearly'`). -/
inductive Period where
  | daily
  | weekly
  | monthly
  | yearly
deriving Repr, DecidableEq

/-- `BudgetLimit` record (`src/types/budget.ts`).  `category = none` models
the `undefined` category ("applies to all expenses"). -/
structure BudgetLimit where
  id : String
  userId : String
  name : String
  amount : ℚ
  period : Period
  category : Option String
  enabled : Bool
  warningThreshold : ℚ
  createdAt : Time
  updatedAt : Time
  synced : Bool
deriving Repr, DecidableEq

/-- Alert kind (`'warning' | 'exceeded' | 'approaching'`). -/
inductive AlertType where
  | warning
  | exceeded
  | approaching
deriving Repr, DecidableEq

/-- `BudgetAlert` record (`src/types/budget.ts`). -/
structure BudgetAlert where
  id : String
  budgetId : String
  userId : String
  type : AlertType
  message : String
  currentAmount : ℚ
  budgetAmount : ℚ
  percentage : Int
  period : Period
  category : Option String
  createdAt : Time
  dismissed : Bool
deriving Repr, DecidableEq

/-- Budget display status (`'safe' | 'warning' | 'exceeded'`). -/
inductive BudgetStatus where
  | safe
  | warning
  | exceeded
deriving Repr, DecidableEq

/-- `BudgetProgress` (`src/types/budget.ts`); `percentage` is the rounded
integer the source stores in this field. -/
structure BudgetProgress where
  budgetId : String
  budgetName : String
  period : Period
  category : Option String
  spent : ℚ
  limit : ℚ
  remaining : ℚ
  percentage : Int
  daysLeft : Int
  status : BudgetStatus
  warningThreshold : ℚ
deriving Repr, DecidableEq

/-! ## The local store (`src/lib/database.ts`, Dexie tables)

A Dexie table is held as a list of records.  `Table.add` rejects a record
whose primary key is already present (Dexie `ConstraintError`) and leaves the
table unchanged; `Table.update` applies the supplied partial fields to the
record with the given key and is a no-op when the key is absent;
`Table.delete` removes the record with the given key. -/

/-- The Dexie database `ExpenseTrackerDB` (expenses, budgets, alerts). -/
structure LocalStore where
  expenses : List Expense
  budgets : List BudgetLimit
  alerts : List BudgetAlert
deriving Repr, DecidableEq

/-- `Partial<Expense>`: the fields a Dexie `update` on `expenses` may carry
(the primary key `id` is never patched by the source). -/
structure ExpensePatch where
  userId : Option String := none
  amount : Option ℚ := none
  category : Option String := none
  descr : Option String := none
  date : Option Date := none
  createdAt : Option Time := none
  updatedAt : Option Time := none
  synced : Option Bool := none
deriving Repr, DecidableEq

/-- Apply a partial-field update to an expense record. -/
def applyExpensePatch (p : ExpensePatch) (e : Expense) : Expense :=
  { e with
    userId := p.userId.getD e.userId
    amount := p.amount.getD e.amount
    category := p.category.getD e.category
    descr := p.descr.getD e.descr
    date := p.date.getD e.date
    createdAt := p.createdAt.getD e.createdAt
    updatedAt := p.updatedAt.getD e.updatedAt
    synced := p.synced.getD e.synced }

/-- `Partial<BudgetLimit>` as built by `BudgetDB.updateBudget`. -/
structure BudgetPatch where
  name : Option String := none
  amount : Option ℚ := none
  period : Option Period := none
  category : Option (Option String) := none
  enabled : Option Bool := none
  warningThreshold : Option ℚ := none
  updatedAt : Option Time := none
  synced : Option Bool := none
deriving Repr, DecidableEq

/-- Apply a partial-field update to a budget record. -/
def applyBudgetPatch (p : BudgetPatch) (b : BudgetLimit) : BudgetLimit :=
  { b with
    name := p.name.getD b.name
    amount := p.amount.getD b.amount
    period := p.period.getD b.period
    category := p.category.getD b.category
    enabled := p.enabled.getD b.enabled
    warningThreshold := p.warningThreshold.getD b.warningThreshold
    updatedAt := p.updatedAt.getD b.updatedAt
    synced := p.synced.getD b.synced }

namespace ExpenseDB

/-- `ExpenseDB.addExpense`: `db.expenses.add(expense)`; Dexie `add` throws on
a duplicate primary key (`ok = false`) and leaves the table unchanged. -/
def addExpense (e : Expense) (s : LocalStore) : LocalStore × Bool :=
  if s.expenses.any (fun r => r.id == e.id) then (s, false)
  else ({ s with expenses := s.expenses ++ [e] }, true)

/-- `ExpenseDB.getExpenses`: `where('userId').equals(userId)`; the source's
`.reverse().reverse()` is the identity on the order. -/
def getExpenses (u : String) (s : LocalStore) : List Expense :=
  s.expenses.filter (fun e => e.userId == u)

/-- `ExpenseDB.getUnsyncedExpenses`: user's records with `synced` false. -/
def getUnsyncedExpenses (u : String) (s : LocalStore) : List Expense :=
  s.expenses.filter (fun e => e.userId == u && !e.synced)

/-- `ExpenseDB.updateExpense`: `db.expenses.update(id, updates)` — the
supplied partial fields are applied verbatim; nothing is stamped here. -/
def updateExpense (id : String) (p : ExpensePatch) (s : LocalStore) : LocalStore :=
  { s with expenses := s.expenses.map (fun r => if r.id == id then applyExpensePatch p r else r) }

/-- `ExpenseDB.markAsSynced`: `db.expenses.update(id, { synced: true })`. -/
def markAsSynced (id : String) (s : LocalStore) : LocalStore :=
  updateExpense id { synced := some true } s

/-- `ExpenseDB.deleteExpense`: `db.expenses.delete(id)`. -/
def deleteExpense (id : String) (s : LocalStore) : LocalStore :=
  { s with expenses := s.expenses.filter (fun r => r.id != id) }

end ExpenseDB

namespace BudgetDB

/-- `BudgetDB.addBudget`: `db.budgets.add(budget)`; Dexie `add` throws on a
duplicate primary key and leaves the table unchanged. -/
def addBudget (b : BudgetLimit) (s : LocalStore) : LocalStore × Bool :=
  if s.budgets.any (fun r => r.id == b.id) then (s, false)
  else ({ s with budgets := s.budgets ++ [b] }, true)

/-- `BudgetDB.getBudgets`: `where('userId').equals(userId).reverse()`. -/
def getBudgets (u : String) (s : LocalStore) : List BudgetLimit :=
  (s.budgets.filter (fun b => b.userId == u)).reverse

/-- `BudgetDB.getBudgetById`: `db.budgets.get(id)`. -/
def getBudgetById (id : String) (s : LocalStore) : Option BudgetLimit :=
  s.budgets.find? (fun b => b.id == id)

/-- `BudgetDB.updateBudget`: `db.budgets.update(id, {...updates,
updatedAt: new Date().toISOString(), synced: false})` — the store-level
budget update stamps `updatedAt` and clears `synced` itself.  `now` is the
instant `new Date()` read inside the function. -/
def updateBudget (id : String) (p : BudgetPatch) (now : Time) (s : LocalStore) : LocalStore :=
  let stamped : BudgetPatch := { p with updatedAt := some now, synced := some false }
  { s with budgets := s.budgets.map (fun b => if b.id == id then applyBudgetPatch stamped b else b) }

/-- `BudgetDB.deleteBudget`: deletes the budget with the given id, then
`db.alerts.where('budgetId').equals(id).delete()`. -/
def deleteBudget (id : String) (s : LocalStore) : LocalStore :=
  { s with
    budgets := s.budgets.filter (fun b => b.id != id)
    alerts := s.alerts.filter (fun a => a.budgetId != id) }

/-- `BudgetDB.getActiveBudgets`: user's budgets with `enabled` true. -/
def getActiveBudgets (u : String) (s : LocalStore) : List BudgetLimit :=
  s.budgets.filter (fun b => b.userId == u && b.enabled)

/-- `BudgetDB.getUnsyncedBudgets`: user's budgets with `synced` false. -/
def getUnsyncedBudgets (u : String) (s : LocalStore) : List BudgetLimit :=
  s.budgets.filter (fun b => b.userId == u && !b.synced)

/-- `BudgetDB.markBudgetAsSynced`: `db.budgets.update(id, { synced: true })`. -/
def markBudgetAsSynced (id : String) (s : LocalStore) : LocalStore :=
  { s with budgets := s.budgets.map (fun b => if b.id == id then { b with synced := true } else b) }

/-- `BudgetDB.addAlert`: `db.alerts.add(alert)`. -/
def addAlert (a : BudgetAlert) (s : LocalStore) : LocalStore × Bool :=
  if s.alerts.any (fun r => r.id == a.id) then (s, false)
  else ({ s with alerts := s.alerts ++ [a] }, true)

/-- `BudgetDB.getRecentAlert`: first undismissed alert of the given
`(budgetId, type)` created within the last `hoursRecent` hours
(`new Date(alert.createdAt) > cutoffDate` with
`cutoffDate = now - hoursRecent`). -/
def getRecentAlert (budgetId : String) (t : AlertType) (hoursRecent : ℚ) (now : Time)
    (s : LocalStore) : Option BudgetAlert :=
  s.alerts.find? (fun a =>
    a.budgetId == budgetId && a.type == t && !a.dismissed && decide (now - hoursRecent < a.createdAt))

/-- `BudgetDB.dismissAlert`: `db.alerts.update(id, { dismissed: true })`. -/
def dismissAlert (id : String) (s : LocalStore) : LocalStore :=
  { s with alerts := s.alerts.map (fun a => if a.id == id then { a with dismissed := true } else a) }

end BudgetDB

/-! ## The sync engine (`src/lib/sync-service.ts`, `SyncService`)

The remote Firestore collections are lists of records keyed by document id
(`setDoc(doc(db, coll, record.id), ...)` is an upsert on that id).  The
engine state bundles the local database, the two remote collections and the
module-level `syncInProgress` flag.  Network outcomes are inputs: `fetchOk`
says whether a `getDocs` query succeeds, and an `uploadOk` oracle says, per
record id, whether its `setDoc` succeeds. -/

/-- The sync engine's state. -/
structure SyncState where
  store : LocalStore
  remoteExpenses : List Expense
  remoteBudgets : List BudgetLimit
  syncInProgress : Bool
deriving Repr, DecidableEq

/-- Firestore `setDoc` on the `expenses` collection: upsert keyed by id. -/
def remoteSetExpense (e : Expense) (rs : List Expense) : List Expense :=
  if rs.any (fun r => r.id == e.id) then rs.map (fun r => if r.id == e.id then e else r)
  else rs ++ [e]

/-- Firestore `setDoc` on the `budgets` collection: upsert keyed by id. -/
def remoteSetBudget (b : BudgetLimit) (rs : List BudgetLimit) : List BudgetLimit :=
  if rs.any (fun r => r.id == b.id) then rs.map (fun r => if r.id == b.id then b else r)
  else rs ++ [b]

/-- Insertion step of the sort modelling the Firestore query's
`orderBy('createdAt', 'desc')` clause. -/
def insertByCreatedAtDesc (e : Expense) : List Expense → List Expense
  | [] => [e]
  | x :: xs => if x.createdAt < e.createdAt then e :: x :: xs else x :: insertByCreatedAtDesc e xs

/-- Remote query results arrive sorted by `createdAt` descending. -/
def sortByCreatedAtDesc (l : List Expense) : List Expense :=
  l.foldr insertByCreatedAtDesc []

/-- Insertion step of the corresponding sort for budgets. -/
def insertBudgetByCreatedAtDesc (b : BudgetLimit) : List BudgetLimit → List BudgetLimit
  | [] => [b]
  | x :: xs => if x.createdAt < b.createdAt then b :: x :: xs else x :: insertBudgetByCreatedAtDesc b xs

/-- Remote budget query results arrive sorted by `createdAt` descending. -/
def sortBudgetsByCreatedAtDesc (l : List BudgetLimit) : List BudgetLimit :=
  l.foldr insertBudgetByCreatedAtDesc []

namespace SyncService

/-- The per-record body of `syncToFirebase`'s upload loop: on success the
remote copy is upserted with `synced: true` and the local record is marked
synced; a failed upload is caught, logged and skipped.  The second component
counts successful uploads. -/
def pushExpensesLoop (uploadOk : String → Bool) : List Expense → SyncState × Nat → SyncState × Nat
  | [], acc => acc
  | e :: es, (st, n) =>
    if uploadOk e.id then
      pushExpensesLoop uploadOk es
        ({ st with
            remoteExpenses := remoteSetExpense { e with synced := true } st.remoteExpenses
            store := ExpenseDB.markAsSynced e.id st.store }, n + 1)
    else pushExpensesLoop uploadOk es (st, n)

/-- `SyncService.syncToFirebase` (push local → remote): no-op while
`syncInProgress` is set; otherwise uploads each unsynced expense of the user
individually, marking each successfully uploaded record synced, and finally
clears the flag.  Returns the number of successful uploads. -/
def syncToFirebase (uploadOk : String → Bool) (u : String) (st : SyncState) : SyncState × Nat :=
  if st.syncInProgress then (st, 0)
  else
    let unsynced := ExpenseDB.getUnsyncedExpenses u st.store
    if unsynced.isEmpty then (st, 0)
    else
      let res := pushExpensesLoop uploadOk unsynced ({ st with syncInProgress := true }, 0)
      ({ res.1 with syncInProgress := false }, res.2)

/-- The per-record body of `syncBudgetsToFirebase`'s upload loop. -/
def pushBudgetsLoop (uploadOk : String → Bool) : List BudgetLimit → SyncState × Nat → SyncState × Nat
  | [], acc => acc
  | b :: bs, (st, n) =>
    if uploadOk b.id then
      pushBudgetsLoop uploadOk bs
        ({ st with
            remoteBudgets := remoteSetBudget { b with synced := true } st.remoteBudgets
            store := BudgetDB.markBudgetAsSynced b.id st.store }, n + 1)
    else pushBudgetsLoop uploadOk bs (st, n)

/-- `SyncService.syncBudgetsToFirebase`: like the expense push but with no
`syncInProgress` guard. -/
def syncBudgetsToFirebase (uploadOk : String → Bool) (u : String) (st : SyncState) : SyncState × Nat :=
  let unsynced := BudgetDB.getUnsyncedBudgets u st.store
  if unsynced.isEmpty then (st, 0)
  else
    let res := pushBudgetsLoop uploadOk unsynced (st, 0)
    (res.1, res.2)

/-- The insertion loop of `syncFromFirebase`: for each fetched record whose
id is not in the (pre-computed) set of local ids of the user, insert it with
`synced: true` via `ExpenseDB.addExpense`.  A thrown `add` aborts the loop;
records inserted before the throw persist. -/
def pullExpensesLoop (localIds : List String) : List Expense → LocalStore → LocalStore × Bool
  | [], s => (s, true)
  | r :: rs, s =>
    if localIds.contains r.id then pullExpensesLoop localIds rs s
    else
      let res := ExpenseDB.addExpense { r with synced := true } s
      if res.2 then pullExpensesLoop localIds rs res.1 else (res.1, false)

/-- `SyncService.syncFromFirebase` (pull remote → local): fetches the user's
remote expenses (sorted by `createdAt` descending), computes the set of local
expense ids of the user once, and inserts only the remote records whose id is
missing, each with `synced: true`.  `fetchOk = false` models a failed
`getDocs` (the error is rethrown before any mutation). -/
def syncFromFirebase (fetchOk : Bool) (u : String) (st : SyncState) : SyncState × Bool :=
  if fetchOk then
    let firebaseExpenses := sortByCreatedAtDesc (st.remoteExpenses.filter (fun r => r.userId == u))
    let localIds := (ExpenseDB.getExpenses u st.store).map (fun e => e.id)
    let res := pullExpensesLoop localIds firebaseExpenses st.store
    ({ st with store := res.1 }, res.2)
  else (st, false)

/-- The insertion loop of `syncBudgetsFromFirebase`. -/
def pullBudgetsLoop (localIds : List String) : List BudgetLimit → LocalStore → LocalStore × Bool
  | [], s => (s, true)
  | r :: rs, s =>
    if localIds.contains r.id then pullBudgetsLoop localIds rs s
    else
      let res := BudgetDB.addBudget { r with synced := true } s
      if res.2 then pullBudgetsLoop localIds rs res.1 else (res.1, false)

/-- `SyncService.syncBudgetsFromFirebase`: the additive pull for budgets. -/
def syncBudgetsFromFirebase (fetchOk : Bool) (u : String) (st : SyncState) : SyncState × Bool :=
  if fetchOk then
    let firebaseBudgets := sortBudgetsByCreatedAtDesc (st.remoteBudgets.filter (fun r => r.userId == u))
    let localIds := (BudgetDB.getBudgets u st.store).map (fun b => b.id)
    let res := pullBudgetsLoop localIds firebaseBudgets st.store
    ({ st with store := res.1 }, res.2)
  else (st, false)

/-- The four awaited operations inside `fullSync`, in source order. -/
inductive SyncStep where
  | pullExpenses
  | pullBudgets
  | pushExpenses
  | pushBudgets
deriving Repr, DecidableEq

/-- Result of a `fullSync` run: the final engine state, whether the call
completed without throwing, and the operations that were started. -/
structure FullSyncResult where
  state : SyncState
  ok : Bool
  steps : List SyncStep
deriving Repr, DecidableEq

/-- `SyncService.fullSync`: one `try` block running
`syncFromFirebase; syncBudgetsFromFirebase; syncToFirebase;
syncBudgetsToFirebase` in sequence; the `catch` rethrows, so an error in an
earlier operation prevents every later operation from starting. -/
def fullSync (fetchE fetchB : Bool) (upE upB : String → Bool) (u : String)
    (st : SyncState) : FullSyncResult :=
  let r1 := syncFromFirebase fetchE u st
  if r1.2 then
    let r2 := syncBudgetsFromFirebase fetchB u r1.1
    if r2.2 then
      let r3 := syncToFirebase upE u r2.1
      let r4 := syncBudgetsToFirebase upB u r3.1
      ⟨r4.1, true, [.pullExpenses, .pullBudgets, .pushExpenses, .pushBudgets]⟩
    else ⟨r2.1, false, [.pullExpenses, .pullBudgets]⟩
  else ⟨r1.1, false, [.pullExpenses]⟩

end SyncService

/-! ## The budget engine (`src/lib/budget-service.ts`, `BudgetService`) -/

/-- Rendering of a `Period` as its source string. -/
def Period.toStr : Period → String
  | .daily => "daily"
  | .weekly => "weekly"
  | .monthly => "monthly"
  | .yearly => "yearly"

namespace BudgetService

/-- The period start boundary computed by `calculateCurrentSpending` from
the clock value `now` it reads via `new Date()`:
daily → midnight today; weekly → `setDate(getDate() - getDay())`, which
keeps the time of day; monthly → the first of the current month;
yearly → January 1. -/
def periodStartTs (p : Period) (now : DateTime) : Time :=
  match p with
  | .daily => now.date.ts
  | .weekly => now.ts - 24 * ((jsGetDay now.date.dayNumber : Int) : ℚ)
  | .monthly => ((24 * jsMakeDay now.date.y (now.date.m - 1) 1 : Int) : ℚ)
  | .yearly => ((24 * jsMakeDay now.date.y 0 1 : Int) : ℚ)

/-- `BudgetService.calculateCurrentSpending(expenses, budget)`.  The source
function takes only `expenses` and `budget`; the evaluation instant is NOT a
parameter — the function reads the ambient clock with `new Date()` inside its
body.  The embedding makes that ambient read explicit as the extra argument
`now`.  An undefined or empty budget category matches every expense
(`!budget.category` is true for both `undefined` and `""`). -/
def calculateCurrentSpending (expenses : List Expense) (budget : BudgetLimit)
    (now : DateTime) : ℚ :=
  let startDate := periodStartTs budget.period now
  let relevantExpenses := expenses.filter (fun e =>
    decide (startDate ≤ e.date.ts) && decide (e.date.ts ≤ now.ts) &&
    (match budget.category with
     | none => true
     | some c => c == "" || e.category == c))
  relevantExpenses.foldl (fun sum e => sum + e.amount) 0

/-- `BudgetService.calculateDaysLeft(period)`: `Math.ceil` of the hour
difference to the period end divided by 24.  Like `calculateCurrentSpending`
it reads the clock internally; the read is the explicit `now` here. -/
def calculateDaysLeft (p : Period) (now : DateTime) : Int :=
  let endTs : Time :=
    match p with
    | .daily => ((24 * jsMakeDay now.date.y (now.date.m - 1) (now.date.d + 1) : Int) : ℚ)
    | .weekly => now.ts + 24 * (((6 - jsGetDay now.date.dayNumber : Int)) : ℚ)
    | .monthly => ((24 * jsMakeDay now.date.y now.date.m 0 : Int) : ℚ)
    | .yearly => ((24 * jsMakeDay (now.date.y + 1) 0 0 : Int) : ℚ)
  ⌈(endTs - now.ts) / 24⌉

/-- The body of `getBudgetProgress`'s `map`: progress of one budget.  The
stored `percentage` is `Math.round((spent / amount) * 100)`; the display
`status` is classified on the UNROUNDED percentage. -/
def progressOf (expenses : List Expense) (now : DateTime) (b : BudgetLimit) : BudgetProgress :=
  let spent := calculateCurrentSpending expenses b now
  let remaining := max 0 (b.amount - spent)
  let percentage := spent / b.amount * 100
  { budgetId := b.id
    budgetName := b.name
    period := b.period
    category := b.category
    spent := spent
    limit := b.amount
    remaining := remaining
    percentage := jsRound percentage
    daysLeft := calculateDaysLeft b.period now
    status :=
      if 100 ≤ percentage then .exceeded
      else if b.warningThreshold ≤ percentage then .warning
      else .safe
    warningThreshold := b.warningThreshold }

/-- `BudgetService.getBudgetProgress`: progress of every active (enabled)
budget of the user, against the user's expenses. -/
def getBudgetProgress (u : String) (now : DateTime) (s : LocalStore) : List BudgetProgress :=
  (BudgetDB.getActiveBudgets u s).map (progressOf (ExpenseDB.getExpenses u s) now)

/-- The alert classification inside `checkBudgetsAndCreateAlerts`: it reads
`progress.percentage` — the ROUNDED integer percentage — and compares it with
the threshold bands. -/
def alertTypeFor (percentage : Int) (warningThreshold : ℚ) : Option AlertType :=
  if 100 ≤ (percentage : ℚ) then some .exceeded
  else if warningThreshold ≤ (percentage : ℚ) then some .warning
  else if warningThreshold - 10 ≤ (percentage : ℚ) then some .approaching
  else none

/-- `BudgetService.generateAlertMessage`.  Number formatting (`toFixed`,
template literals) is abstracted by `toString`; the branch structure and the
compared values follow the source. -/
def generateAlertMessage (b : BudgetLimit) (p : BudgetProgress) : String :=
  let categoryText : String :=
    match b.category with
    | none => ""
    | some c => if c == "" then "" else " for " ++ c
  let periodText := b.period.toStr
  if 100 ≤ (p.percentage : ℚ) then
    "You have exceeded your " ++ periodText ++ " budget " ++ b.name ++ categoryText ++
      "! Spent $" ++ toString p.spent ++ " of $" ++ toString b.amount ++
      " (" ++ toString p.percentage ++ "%)"
  else if p.warningThreshold ≤ (p.percentage : ℚ) then
    "You are approaching your " ++ periodText ++ " budget " ++ b.name ++ categoryText ++
      ". Spent $" ++ toString p.spent ++ " of $" ++ toString b.amount ++
      " (" ++ toString p.percentage ++ "%)"
  else
    "Budget " ++ b.name ++ categoryText ++ " is at " ++ toString p.percentage ++
      "% for this " ++ periodText

/-- The alert record built inside `checkBudgetsAndCreateAlerts`. -/
def mkAlert (id : String) (u : String) (b : BudgetLimit) (t : AlertType)
    (p : BudgetProgress) (now : Time) : BudgetAlert :=
  { id := id
    budgetId := b.id
    userId := u
    type := t
    message := generateAlertMessage b p
    currentAmount := p.spent
    budgetAmount := p.limit
    percentage := p.percentage
    period := b.period
    category := b.category
    createdAt := now
    dismissed := false }

/-- The per-budget loop of `checkBudgetsAndCreateAlerts`: look the budget up
by id, classify on the rounded percentage, suppress when an undismissed alert
of the same `(budgetId, type)` exists within the last 24 hours, otherwise
persist (`BudgetDB.addAlert`) and collect the new alert.  `freshId k` models
the `uuidv4()` generated for the `k`-th created alert; a throwing `addAlert`
aborts the loop with the mutations so far persisted. -/
def checkLoop (u : String) (now : DateTime) (freshId : Nat → String) :
    List BudgetProgress → List BudgetAlert → LocalStore →
    List BudgetAlert × LocalStore × Bool
  | [], acc, s => (acc, s, true)
  | p :: ps, acc, s =>
    match BudgetDB.getBudgetById p.budgetId s with
    | none => checkLoop u now freshId ps acc s
    | some b =>
      match alertTypeFor p.percentage p.warningThreshold with
      | none => checkLoop u now freshId ps acc s
      | some t =>
        match BudgetDB.getRecentAlert b.id t 24 now.ts s with
        | some _ => checkLoop u now freshId ps acc s
        | none =>
          let a := mkAlert (freshId acc.length) u b t p now.ts
          let res := BudgetDB.addAlert a s
          if res.2 then checkLoop u now freshId ps (acc ++ [a]) res.1
          else (acc, res.1, false)

/-- `BudgetService.checkBudgetsAndCreateAlerts`: compute the progress list
once, then run the alert loop.  Returns the list of newly persisted alerts,
the updated store, and whether the call completed without throwing. -/
def checkBudgetsAndCreateAlerts (u : String) (now : DateTime) (freshId : Nat → String)
    (s : LocalStore) : List BudgetAlert × LocalStore × Bool :=
  checkLoop u now freshId (getBudgetProgress u now s) [] s

/-- `getBudgetProgress` with the two Dexie reads' outcomes explicit: the
source wraps them in a `try` whose `catch` RETHROWS, so a failed read
propagates as a failure of the whole operation. -/
def getBudgetProgressE (budgetsRead : Except Unit (List BudgetLimit))
    (expensesRead : Except Unit (List Expense)) (now : DateTime) :
    Except Unit (List BudgetProgress) := do
  let bs ← budgetsRead
  let es ← expensesRead
  return bs.map (progressOf es now)

/-- `checkBudgetsAndCreateAlerts` with the outcome of its initial
`getBudgetProgress` call explicit: its `catch` also rethrows. -/
def checkBudgetsAndCreateAlertsE (u : String) (now : DateTime) (freshId : Nat → String)
    (progressRead : Except Unit (List BudgetProgress)) (s : LocalStore) :
    Except Unit (List BudgetAlert × LocalStore × Bool) := do
  let ps ← progressRead
  return checkLoop u now freshId ps [] s

end BudgetService

/-! ## The expense service (`src/lib/expense-service.ts`, `ExpenseService`) -/

/-- `Partial<ExpenseFormData>`: the caller-supplied fields of an expense
update. -/
structure ExpenseFormPatch where
  amount : Option ℚ := none
  category : Option String := none
  descr : Option String := none
  date : Option Date := none
deriving Repr, DecidableEq

/-- The `{unsyncedCount, isOnline}` value returned by `getSyncStatus`. -/
structure SyncStatus where
  unsyncedCount : Nat
  isOnline : Bool
deriving Repr, DecidableEq

namespace ExpenseService

/-- The `updateData` object built by `ExpenseService.updateExpense`: the
caller's partial form fields spread together with `updatedAt: now` and
`synced: false` — the stamping for expense mutations happens HERE, in the
service, not in `ExpenseDB.updateExpense`. -/
def expenseUpdateData (p : ExpenseFormPatch) (now : Time) : ExpensePatch :=
  { amount := p.amount
    category := p.category
    descr := p.descr
    date := p.date
    updatedAt := some now
    synced := some false }

/-- `ExpenseService.updateExpense`: write the stamped update to the local
store, then, when online, opportunistically push (`syncToFirebase`; its
failure is caught and only logged). -/
def updateExpense (online : Bool) (uploadOk : String → Bool) (u : String) (id : String)
    (p : ExpenseFormPatch) (now : Time) (st : SyncState) : SyncState :=
  let st1 := { st with store := ExpenseDB.updateExpense id (expenseUpdateData p now) st.store }
  if online then (SyncService.syncToFirebase uploadOk u st1).1 else st1

/-- `ExpenseService.getSyncStatus` with the Dexie read's outcome explicit:
the source catches ANY error and returns `{unsyncedCount: 0, isOnline:
false}` in its place — the failure is swallowed, not propagated, and the
return type cannot express a failure at all. -/
def getSyncStatus (unsyncedRead : Except Unit (List Expense)) (online : Bool) : SyncStatus :=
  match unsyncedRead with
  | .ok es => { unsyncedCount := es.length, isOnline := online }
  | .error _ => { unsyncedCount := 0, isOnline := false }

end ExpenseService

/-! ## Concrete states used to instantiate and to refute claims -/

/-- A local expense already present before a pull (owner `u1`, id `"a"`). -/
def eC1local : Expense :=
  { id := "a", userId := "u1", amount := 3, category := "Food", descr := "old",
    date := ⟨2024, 1, 10⟩, createdAt := 1, updatedAt := 1, synced := true }

/-- A remote copy of id `"a"` with different fields (newer remote edit). -/
def eC1remoteA : Expense :=
  { id := "a", userId := "u1", amount := 4, category := "Food", descr := "newer",
    date := ⟨2024, 1, 10⟩, createdAt := 1, updatedAt := 2, synced := true }

/-- A remote record with an id unknown locally. -/
def eC1remoteB : Expense :=
  { id := "b", userId := "u1", amount := 5, category := "Travel", descr := "trip",
    date := ⟨2024, 1, 11⟩, createdAt := 3, updatedAt := 3, synced := true }

/-- Engine state for exercising the additive pull. -/
def stC1 : SyncState :=
  { store := { expenses := [eC1local], budgets := [], alerts := [] }
    remoteExpenses := [eC1remoteA, eC1remoteB]
    remoteBudgets := []
    syncInProgress := false }

/-- A local budget with pending (unsynced) changes. -/
def bC2local : BudgetLimit :=
  { id := "lb", userId := "u1", name := "local", amount := 50, period := .monthly,
    category := none, enabled := true, warningThreshold := 80,
    createdAt := 1, updatedAt := 1, synced := false }

/-- A remote budget not yet present locally. -/
def bC2remote : BudgetLimit :=
  { id := "rb", userId := "u1", name := "remote", amount := 60, period := .weekly,
    category := none, enabled := true, warningThreshold := 90,
    createdAt := 2, updatedAt := 2, synced := true }

/-- Engine state in which the budget pair of `fullSync` has work to do
(a remote budget to pull, a local budget to push). -/
def stC2 : SyncState :=
  { store := { expenses := [], budgets := [bC2local], alerts := [] }
    remoteExpenses := []
    remoteBudgets := [bC2remote]
    syncInProgress := false }

/-- An unsynced local expense awaiting upload. -/
def eC3 : Expense :=
  { id := "e", userId := "u1", amount := 7, category := "Food", descr := "lunch",
    date := ⟨2024, 2, 1⟩, createdAt := 1, updatedAt := 1, synced := false }

/-- Engine state for exercising push idempotence. -/
def stC3 : SyncState :=
  { store := { expenses := [eC3], budgets := [], alerts := [] }
    remoteExpenses := []
    remoteBudgets := []
    syncInProgress := false }

/-- An expense that has been synced (`synced = true`, `updatedAt = 5`). -/
def eC4 : Expense :=
  { id := "e1", userId := "u1", amount := 10, category := "Food", descr := "x",
    date := ⟨2024, 2, 2⟩, createdAt := 5, updatedAt := 5, synced := true }

/-- A store holding only `eC4`. -/
def sC4 : LocalStore := { expenses := [eC4], budgets := [], alerts := [] }

/-- A partial update that only changes `amount` — it carries neither
`updatedAt` nor `synced`. -/
def pC4 : ExpensePatch := { amount := some 7 }

/-- The caller-level form patch for the stamping witness. -/
def fpC4 : ExpenseFormPatch := { amount := some 7 }

/-- Engine state wrapping `sC4`. -/
def stC4 : SyncState :=
  { store := sC4, remoteExpenses := [], remoteBudgets := [], syncInProgress := false }

/-- The record expected after the service-level update of `eC4` at time 9. -/
def rC4 : Expense := applyExpensePatch (ExpenseService.expenseUpdateData fpC4 9) eC4

/-- An expense putting the C5 witness budget at 85% spend. -/
def eC5 : Expense :=
  { id := "e5", userId := "u1", amount := 85, category := "Food", descr := "",
    date := ⟨2024, 3, 15⟩, createdAt := 1, updatedAt := 1, synced := true }

/-- A monthly budget of 100 with `warningThreshold = 80`. -/
def bC5 : BudgetLimit :=
  { id := "b5", userId := "u1", name := "m5", amount := 100, period := .monthly,
    category := none, enabled := true, warningThreshold := 80,
    createdAt := 1, updatedAt := 1, synced := false }

/-- Store for the alert-dedup witness. -/
def sC5 : LocalStore := { expenses := [eC5], budgets := [bC5], alerts := [] }

/-- Evaluation instant for the alert-dedup witness. -/
def nowC5 : DateTime := ⟨⟨2024, 3, 20⟩, 10⟩

/-- The id generator used in the C5 witness run. -/
def freshC5 : Nat → String := fun n => "alert" ++ toString n

/-- An expense of 199 against a budget of 200: the exact percentage is
99.5, which `Math.round` turns into 100. -/
def eC6 : Expense :=
  { id := "e6", userId := "u1", amount := 199, category := "Food", descr := "",
    date := ⟨2024, 3, 15⟩, createdAt := 1, updatedAt := 1, synced := true }

/-- A monthly budget of 200 with `warningThreshold = 80`. -/
def bC6 : BudgetLimit :=
  { id := "b6", userId := "u1", name := "m6", amount := 200, period := .monthly,
    category := none, enabled := true, warningThreshold := 80,
    createdAt := 1, updatedAt := 1, synced := false }

/-- Store for the rounded-classification counterexample. -/
def sC6 : LocalStore := { expenses := [eC6], budgets := [bC6], alerts := [] }

/-- Evaluation instant for the rounded-classification counterexample. -/
def nowC6 : DateTime := ⟨⟨2024, 3, 20⟩, 10⟩

/-- An expense dated 2024-03-15 for the ambient-clock counterexample. -/
def eC7 : Expense :=
  { id := "e7", userId := "u1", amount := 15, category := "Food", descr := "",
    date := ⟨2024, 3, 15⟩, createdAt := 1, updatedAt := 1, synced := true }

/-- A monthly all-category budget. -/
def bC7 : BudgetLimit :=
  { id := "b7", userId := "u1", name := "m7", amount := 100, period := .monthly,
    category := none, enabled := true, warningThreshold := 80,
    createdAt := 1, updatedAt := 1, synced := false }

/-- An ambient clock value inside March 2024. -/
def nowC7a : DateTime := ⟨⟨2024, 3, 20⟩, 10⟩

/-- An ambient clock value shortly after, in April 2024. -/
def nowC7b : DateTime := ⟨⟨2024, 4, 2⟩, 6⟩

/-- First expense of the multiset-invariance witness. -/
def eC7p : Expense :=
  { id := "p", userId := "u1", amount := 1, category := "Food", descr := "",
    date := ⟨2024, 3, 16⟩, createdAt := 1, updatedAt := 1, synced := true }

/-- Second expense of the multiset-invariance witness. -/
def eC7q : Expense :=
  { id := "q", userId := "u1", amount := 2, category := "Food", descr := "",
    date := ⟨2024, 3, 17⟩, createdAt := 1, updatedAt := 1, synced := true }

/-- An expense whose id collides with `eC10`. -/
def eC10 : Expense :=
  { id := "dup", userId := "u1", amount := 1, category := "Food", descr := "",
    date := ⟨2024, 2, 3⟩, createdAt := 1, updatedAt := 1, synced := false }

/-- A second record carrying the same id `"dup"` with different fields. -/
def eC10' : Expense :=
  { id := "dup", userId := "u2", amount := 2, category := "Travel", descr := "other",
    date := ⟨2024, 2, 4⟩, createdAt := 2, updatedAt := 2, synced := true }

/-- A budget with an id not yet present in the store. -/
def bC10 : BudgetLimit :=
  { id := "nb", userId := "u1", name := "fresh", amount := 10, period := .daily,
    category := none, enabled := true, warningThreshold := 80,
    createdAt := 1, updatedAt := 1, synced := false }

/-- Store holding `eC10`, used to exercise duplicate-id insertion. -/
def sC10 : LocalStore := { expenses := [eC10], budgets := [], alerts := [] }

/-! ## Theorems -/

/-- Claim C8: deleting a budget removes it and exactly the alerts that
reference it; every alert of another budget, every other budget, and the
whole expense table are untouched — no orphan alert referencing the deleted
budget survives. -/
theorem deleteBudget_cascades_c8 (s : LocalStore) (bid : String) :
    (∀ a : BudgetAlert, a ∈ (BudgetDB.deleteBudget bid s).alerts ↔ a ∈ s.alerts ∧ a.budgetId ≠ bid)
    ∧ (∀ b : BudgetLimit, b ∈ (BudgetDB.deleteBudget bid s).budgets ↔ b ∈ s.budgets ∧ b.id ≠ bid)
    ∧ (BudgetDB.deleteBudget bid s).expenses = s.expenses := by
  refine ⟨fun a => ?_, fun b => ?_, rfl⟩
  · simp [BudgetDB.deleteBudget, List.mem_filter, bne_iff_ne]
  · simp [BudgetDB.deleteBudget, List.mem_filter, bne_iff_ne]

/-- Claim C10: inserting a record whose id is already present fails and
leaves the store unchanged (Dexie `add`, not `put`), for expenses and for
budgets alike; with a fresh id the record is appended. -/
theorem add_never_overwrites_c10 (s : LocalStore) (e : Expense) (b : BudgetLimit) :
    ((∃ r ∈ s.expenses, r.id = e.id) → ExpenseDB.addExpense e s = (s, false))
    ∧ ((∀ r ∈ s.expenses, r.id ≠ e.id) →
        ExpenseDB.addExpense e s = ({ s with expenses := s.expenses ++ [e] }, true))
    ∧ ((∃ r ∈ s.budgets, r.id = b.id) → BudgetDB.addBudget b s = (s, false))
    ∧ ((∀ r ∈ s.budgets, r.id ≠ b.id) →
        BudgetDB.addBudget b s = ({ s with budgets := s.budgets ++ [b] }, true)) := by
  refine ⟨?_, ?_, ?_, ?_⟩
  · rintro ⟨r, hr, hid⟩
    have h : s.expenses.any (fun r => r.id == e.id) = true := by
      simp only [List.any_eq_true]
      exact ⟨r, hr, by simp [hid]⟩
    simp [ExpenseDB.addExpense, h]
  · intro hfresh
    have h : s.expenses.any (fun r => r.id == e.id) = false := by
      simp only [List.any_eq_false]
      intro r hr
      simp [hfresh r hr]
    simp [ExpenseDB.addExpense, h]
  · rintro ⟨r, hr, hid⟩
    have h : s.budgets.any (fun r => r.id == b.id) = true := by
      simp only [List.any_eq_true]
      exact ⟨r, hr, by simp [hid]⟩
    simp [BudgetDB.addBudget, h]
  · intro hfresh
    have h : s.budgets.any (fun r => r.id == b.id) = false := by
      simp only [List.any_eq_false]
      intro r hr
      simp [hfresh r hr]
    simp [BudgetDB.addBudget, h]

/-- Witness for C10: inserting `eC10'` (same id `"dup"` as the stored
`eC10`) fails and leaves the store as it was, while inserting the
fresh-id budget `bC10` appends it. -/
theorem add_never_overwrites_c10_witness :
    ExpenseDB.addExpense eC10' sC10 = (sC10, false)
    ∧ BudgetDB.addBudget bC10 sC10 = ({ sC10 with budgets := sC10.budgets ++ [bC10] }, true) :=
  ⟨(add_never_overwrites_c10 sC10 eC10' bC10).1 ⟨eC10, by simp [sC10], rfl⟩,
   (add_never_overwrites_c10 sC10 eC10' bC10).2.2.2 (by simp [sC10])⟩

/-- Claim C9 (corrected): a failed Dexie read propagates out of
`getBudgetProgress` and `checkBudgetsAndCreateAlerts` (their catch blocks
rethrow), but `ExpenseService.getSyncStatus` swallows the failure and
returns the fabricated default `{unsyncedCount := 0, isOnline := false}`. -/
theorem failure_propagation_amended_c9 :
    (∀ (es : Except Unit (List Expense)) (now : DateTime),
      BudgetService.getBudgetProgressE (.error ()) es now = .error ())
    ∧ (∀ (bs : List BudgetLimit) (now : DateTime),
      BudgetService.getBudgetProgressE (.ok bs) (.error ()) now = .error ())
    ∧ (∀ (u : String) (now : DateTime) (freshId : Nat → String) (s : LocalStore),
      BudgetService.checkBudgetsAndCreateAlertsE u now freshId (.error ()) s = .error ())
    ∧ (∀ online : Bool,
      ExpenseService.getSyncStatus (.error ()) online
        = { unsyncedCount := 0, isOnline := false }) :=
  ⟨fun _ _ => rfl, fun _ _ => rfl, fun _ _ _ _ => rfl, fun _ => rfl⟩

/-- Counterexample for C9: when the unsynced-expense read fails while the
device is online, `getSyncStatus` does not propagate the failure — it
returns the fabricated value `{unsyncedCount := 0, isOnline := false}`
(its return type cannot even express an error). -/
theorem getSyncStatus_swallows_counterexample_c9 :
    ExpenseService.getSyncStatus (.error ()) true
      = { unsyncedCount := 0, isOnline := false } := rfl

/-- Counterexample for C4: `ExpenseDB.updateExpense` applies exactly the
supplied partial fields — updating only `amount` on the synced record `eC4`
leaves `synced = true` and `updatedAt = 5`, so the store-level expense
update does not stamp anything. -/
theorem update_keeps_synced_counterexample_c4 :
    ExpenseDB.updateExpense "e1" pC4 sC4
      = { expenses := [{ eC4 with amount := 7 }], budgets := [], alerts := [] }
    ∧ ({ eC4 with amount := 7 } : Expense).synced = true
    ∧ ({ eC4 with amount := 7 } : Expense).updatedAt = 5 := by
  refine ⟨?_, rfl, rfl⟩
  simp [ExpenseDB.updateExpense, applyExpensePatch, pC4, sC4, eC4]

/-- Claim C4 (corrected): the stamping invariant holds where the source
implements it — `BudgetDB.updateBudget` stamps `updatedAt = now` and
`synced = false` at store level, and expense mutations are stamped by
`ExpenseService.updateExpense`, which builds the update object with
`updatedAt: now, synced: false` before handing it to the raw
`ExpenseDB.updateExpense`. -/
theorem update_stamps_amended_c4 (st : SyncState) (s : LocalStore) (upOk : String → Bool)
    (u id : String) (fp : ExpenseFormPatch) (bp : BudgetPatch) (now : Time) :
    (∀ r ∈ (ExpenseService.updateExpense false upOk u id fp now st).store.expenses,
      r.id = id → r.updatedAt = now ∧ r.synced = false)
    ∧ (∀ b ∈ (BudgetDB.updateBudget id bp now s).budgets,
      b.id = id → b.updatedAt = now ∧ b.synced = false) := by
  constructor
  · intro r hr hid
    simp only [ExpenseService.updateExpense, Bool.false_eq_true, if_false,
      ExpenseDB.updateExpense, List.mem_map] at hr
    obtain ⟨r₀, _, hre⟩ := hr
    by_cases h : r₀.id == id
    · rw [if_pos h] at hre
      subst hre
      exact ⟨rfl, rfl⟩
    · rw [if_neg h] at hre
      subst hre
      simp [hid] at h
  · intro b hb hid
    simp only [BudgetDB.updateBudget, List.mem_map] at hb
    obtain ⟨b₀, _, hbe⟩ := hb
    by_cases h : b₀.id == id
    · rw [if_pos h] at hbe
      subst hbe
      exact ⟨rfl, rfl⟩
    · rw [if_neg h] at hbe
      subst hbe
      simp [hid] at h

/-- Witness for the amended C4: updating `eC4` through the service at time
9 yields a record stamped `updatedAt = 9`, `synced = false`. -/
theorem update_stamps_amended_c4_witness :
    rC4 ∈ (ExpenseService.updateExpense false (fun _ => true) "u1" "e1" fpC4 9 stC4).store.expenses
    ∧ rC4.updatedAt = 9 ∧ rC4.synced = false := by
  have hm : rC4 ∈ (ExpenseService.updateExpense false (fun _ => true) "u1" "e1" fpC4 9 stC4).store.expenses := by
    simp [ExpenseService.updateExpense, ExpenseDB.updateExpense, stC4, sC4, rC4, eC4]
  have h := (update_stamps_amended_c4 stC4 sC4 (fun _ => true) "u1" "e1" fpC4 { } 9).1 rC4 hm rfl
  exact ⟨hm, h.1, h.2⟩

/-- Counterexample for C6: with spend 199 against a budget of 200 the exact
ratio is 99.5% — strictly below 100 — yet the evaluation produces an
`exceeded` alert, because `checkBudgetsAndCreateAlerts` classifies on
`progress.percentage`, the `Math.round`ed integer (here 100), not on the
exact ratio. -/
theorem rounded_classification_counterexample_c6 :
    (BudgetService.checkBudgetsAndCreateAlerts "u1" nowC6 (fun n => "a" ++ toString n) sC6).1.map
        (fun a => a.type) = [AlertType.exceeded]
    ∧ BudgetService.calculateCurrentSpending (ExpenseDB.getExpenses "u1" sC6) bC6 nowC6 = 199
    ∧ ¬(100 ≤ (199 : ℚ) / bC6.amount * 100) := by
  have h1 : daysFromCivil 2024 3 15 = 19797 := by decide
  have h2 : daysFromCivil 2024 3 20 = 19802 := by decide
  have h3 : jsMakeDay 2024 2 1 = 19783 := by decide
  have h4 : jsMakeDay 2024 3 0 = 19813 := by decide
  have h5 : jsRound ((199 : ℚ) / 2) = 100 := by
    rw [jsRound, show (199 : ℚ) / 2 + 1 / 2 = 100 by norm_num]
    exact Int.floor_intCast 100
  refine ⟨?_, ?_, ?_⟩
  · simp only [BudgetService.checkBudgetsAndCreateAlerts, BudgetService.checkLoop,
      BudgetService.getBudgetProgress, BudgetService.progressOf, BudgetService.alertTypeFor,
      BudgetService.calculateCurrentSpending, BudgetService.periodStartTs,
      BudgetService.calculateDaysLeft, BudgetService.mkAlert,
      BudgetDB.getActiveBudgets, BudgetDB.getBudgetById, BudgetDB.getRecentAlert, BudgetDB.addAlert,
      ExpenseDB.getExpenses, eC6, bC6, sC6, nowC6, Date.ts, DateTime.ts, Date.dayNumber,
      List.filter, List.find?, List.foldl, List.any]
    norm_num [h1, h2, h3, h4, h5]
  · simp only [BudgetService.calculateCurrentSpending, BudgetService.periodStartTs,
      ExpenseDB.getExpenses, eC6, bC6, sC6, nowC6, Date.ts, DateTime.ts, Date.dayNumber,
      List.filter, List.foldl]
    norm_num [h1, h2, h3]
  · simp only [bC6]
    norm_num

/-- The nested `if` classification of `checkBudgetsAndCreateAlerts` hits
exclusive bands of the (rounded) percentage, provided the warning threshold
is at most 100. -/
theorem alertTypeFor_bands (n : Int) (w : ℚ) (hw : w ≤ 100) :
    (BudgetService.alertTypeFor n w = some .exceeded ↔ 100 ≤ (n : ℚ))
    ∧ (BudgetService.alertTypeFor n w = some .warning ↔ w ≤ (n : ℚ) ∧ (n : ℚ) < 100)
    ∧ (BudgetService.alertTypeFor n w = some .approaching ↔ w - 10 ≤ (n : ℚ) ∧ (n : ℚ) < w)
    ∧ (BudgetService.alertTypeFor n w = none ↔ (n : ℚ) < w - 10) := by
  by_cases h1 : (100 : ℚ) ≤ (n : ℚ)
  · have hnw : ¬((n : ℚ) < w) := not_lt.mpr (hw.trans h1)
    have hn100 : ¬((n : ℚ) < 100) := not_lt.mpr h1
    have hn10 : ¬((n : ℚ) < w - 10) := by push_neg; linarith
    simp [BudgetService.alertTypeFor, h1, hnw, hn100, hn10]
  · by_cases h2 : w ≤ (n : ℚ)
    · have hnw : ¬((n : ℚ) < w) := not_lt.mpr h2
      have hn10 : ¬((n : ℚ) < w - 10) := by push_neg; linarith
      simp [BudgetService.alertTypeFor, h1, h2, hnw, hn10, not_le.mp h1]
    · by_cases h3 : w - 10 ≤ (n : ℚ)
      · have hn10 : ¬((n : ℚ) < w - 10) := not_lt.mpr h3
        simp [BudgetService.alertTypeFor, h1, h2, h3, hn10, not_le.mp h2]
      · simp [BudgetService.alertTypeFor, h1, h2, h3, not_le.mp h3]

/-- Claim C6 (amended): the alert classification in
`checkBudgetsAndCreateAlerts` is by exclusive bands, but over the ROUNDED
integer percentage `progress.percentage = Math.round(spend / amount * 100)`
(for thresholds in their documented 1–100 range): `exceeded` iff
`round ≥ 100`, `warning` iff `threshold ≤ round < 100`, `approaching` iff
`threshold - 10 ≤ round < threshold`, and no alert iff
`round < threshold - 10`. -/
theorem rounded_classification_amended_c6 (es : List Expense) (b : BudgetLimit) (now : DateTime)
    (hw : b.warningThreshold ≤ 100) :
    (BudgetService.progressOf es now b).percentage
      = jsRound (BudgetService.calculateCurrentSpending es b now / b.amount * 100)
    ∧ (BudgetService.alertTypeFor (BudgetService.progressOf es now b).percentage b.warningThreshold
        = some .exceeded ↔ 100 ≤ ((BudgetService.progressOf es now b).percentage : ℚ))
    ∧ (BudgetService.alertTypeFor (BudgetService.progressOf es now b).percentage b.warningThreshold
        = some .warning ↔ b.warningThreshold ≤ ((BudgetService.progressOf es now b).percentage : ℚ)
          ∧ ((BudgetService.progressOf es now b).percentage : ℚ) < 100)
    ∧ (BudgetService.alertTypeFor (BudgetService.progressOf es now b).percentage b.warningThreshold
        = some .approaching ↔ b.warningThreshold - 10 ≤ ((BudgetService.progressOf es now b).percentage : ℚ)
          ∧ ((BudgetService.progressOf es now b).percentage : ℚ) < b.warningThreshold)
    ∧ (BudgetService.alertTypeFor (BudgetService.progressOf es now b).percentage b.warningThreshold
        = none ↔ ((BudgetService.progressOf es now b).percentage : ℚ) < b.warningThreshold - 10) := by
  have h := alertTypeFor_bands (BudgetService.progressOf es now b).percentage b.warningThreshold hw
  exact ⟨rfl, h.1, h.2.1, h.2.2.1, h.2.2.2⟩

/-- Witness for the amended C6: the `exceeded` band characterization at the
concrete 199-of-200 instance. -/
theorem rounded_classification_amended_c6_witness :
    BudgetService.alertTypeFor (BudgetService.progressOf [eC6] nowC6 bC6).percentage
        bC6.warningThreshold = some .exceeded
      ↔ 100 ≤ ((BudgetService.progressOf [eC6] nowC6 bC6).percentage : ℚ) :=
  (rounded_classification_amended_c6 [eC6] bC6 nowC6 (by norm_num [bC6])).2.1

/-- Counterexample for C7: two invocations of `calculateCurrentSpending`
with identical source-level arguments (the same expense list and the same
budget) return different sums, because the evaluation instant is not an
argument — the function reads the ambient clock (`new Date()`) inside its
body. -/
theorem ambient_clock_counterexample_c7 :
    BudgetService.calculateCurrentSpending [eC7] bC7 nowC7a = 15
    ∧ BudgetService.calculateCurrentSpending [eC7] bC7 nowC7b = 0
    ∧ (15 : ℚ) ≠ 0 := by
  have h1 : daysFromCivil 2024 3 15 = 19797 := by decide
  have h2 : daysFromCivil 2024 3 20 = 19802 := by decide
  have h3 : daysFromCivil 2024 4 2 = 19815 := by decide
  have h4 : jsMakeDay 2024 2 1 = 19783 := by decide
  have h5 : jsMakeDay 2024 3 1 = 19814 := by decide
  refine ⟨?_, ?_, by norm_num⟩
  · simp only [BudgetService.calculateCurrentSpending, BudgetService.periodStartTs,
      eC7, bC7, nowC7a, Date.ts, DateTime.ts, Date.dayNumber, List.filter, List.foldl]
    try norm_num [h1, h2, h4]
  · simp only [BudgetService.calculateCurrentSpending, BudgetService.periodStartTs,
      eC7, bC7, nowC7b, Date.ts, DateTime.ts, Date.dayNumber, List.filter, List.foldl]
    try norm_num [h1, h3, h5]

/-- Folding `(sum, e) ↦ sum + e.amount` is summing the amounts. -/
theorem foldl_add_amounts (l : List Expense) :
    ∀ q : ℚ, l.foldl (fun sum e => sum + e.amount) q = q + (l.map (fun e => e.amount)).sum := by
  induction l with
  | nil => simp
  | cons e t ih => intro q; simp [ih, add_assoc]

/-- Claim C7 (amended): `calculateCurrentSpending` is deterministic in its
actual inputs plus the ambient clock instant it reads — in particular its
value depends on the expense list only as a multiset — but the instant is an
ambient `new Date()` read, not a parameter, so equal source-level arguments
alone do not determine the result. -/
theorem currentSpend_deterministic_amended_c7 (es₁ es₂ : List Expense) (b : BudgetLimit)
    (now : DateTime) (h : es₁.Perm es₂) :
    BudgetService.calculateCurrentSpending es₁ b now
      = BudgetService.calculateCurrentSpending es₂ b now := by
  unfold BudgetService.calculateCurrentSpending
  rw [foldl_add_amounts, foldl_add_amounts]
  simp only [zero_add]
  exact List.Perm.sum_eq (List.Perm.map _ (List.Perm.filter _ h))

/-- Witness for the amended C7: the spend over a two-element expense list
equals the spend over its transposition. -/
theorem currentSpend_deterministic_amended_c7_witness :
    BudgetService.calculateCurrentSpending [eC7p, eC7q] bC7 nowC7a
      = BudgetService.calculateCurrentSpending [eC7q, eC7p] bC7 nowC7a :=
  currentSpend_deterministic_amended_c7 _ _ _ _ (List.Perm.swap eC7q eC7p [])

/-- Counterexample for C2: when the expense pull fails (its remote fetch
throws), `fullSync` stops at once — the budget pull and both pushes never
start, even though the budget pair has pending work on both sides
(a remote budget to pull and an unsynced local budget to push). -/
theorem fullSync_aborts_counterexample_c2 :
    SyncService.fullSync false true (fun _ => true) (fun _ => true) "u1" stC2
      = ⟨stC2, false, [SyncService.SyncStep.pullExpenses]⟩
    ∧ SyncService.SyncStep.pullBudgets
        ∉ (SyncService.fullSync false true (fun _ => true) (fun _ => true) "u1" stC2).steps
    ∧ SyncService.SyncStep.pushBudgets
        ∉ (SyncService.fullSync false true (fun _ => true) (fun _ => true) "u1" stC2).steps
    ∧ BudgetDB.getUnsyncedBudgets "u1" stC2.store ≠ []
    ∧ stC2.remoteBudgets.filter (fun r => r.userId == "u1") ≠ [] := by
  refine ⟨rfl, by decide, by decide, ?_, ?_⟩
  · simp [BudgetDB.getUnsyncedBudgets, stC2, bC2local]
  · simp [stC2, bC2remote]

/-- Claim C2 (amended): `fullSync` runs its four operations in the fixed
order expense pull, budget pull, expense push, budget push — so every pull
precedes every push — but inside ONE `try` block: the call succeeds exactly
when all four ran, and on a failure the remaining operations (in particular
both pushes) never start. -/
theorem fullSync_sequential_amended_c2 (fetchE fetchB : Bool) (upE upB : String → Bool)
    (u : String) (st : SyncState) :
    (∃ rest, (SyncService.fullSync fetchE fetchB upE upB u st).steps ++ rest
        = [SyncService.SyncStep.pullExpenses, SyncService.SyncStep.pullBudgets,
           SyncService.SyncStep.pushExpenses, SyncService.SyncStep.pushBudgets])
    ∧ ((SyncService.fullSync fetchE fetchB upE upB u st).ok = true ↔
        (SyncService.fullSync fetchE fetchB upE upB u st).steps
          = [SyncService.SyncStep.pullExpenses, SyncService.SyncStep.pullBudgets,
             SyncService.SyncStep.pushExpenses, SyncService.SyncStep.pushBudgets])
    ∧ ((SyncService.fullSync fetchE fetchB upE upB u st).ok = false →
        SyncService.SyncStep.pushExpenses ∉ (SyncService.fullSync fetchE fetchB upE upB u st).steps
        ∧ SyncService.SyncStep.pushBudgets ∉ (SyncService.fullSync fetchE fetchB upE upB u st).steps) := by
  by_cases h1 : (SyncService.syncFromFirebase fetchE u st).2
  · by_cases h2 : (SyncService.syncBudgetsFromFirebase fetchB u (SyncService.syncFromFirebase fetchE u st).1).2
    · refine ⟨⟨[], ?_⟩, ?_, ?_⟩ <;> simp [SyncService.fullSync, h1, h2]
    · refine ⟨⟨[SyncService.SyncStep.pushExpenses, SyncService.SyncStep.pushBudgets], ?_⟩, ?_, ?_⟩ <;>
        simp [SyncService.fullSync, h1, h2]
  · refine ⟨⟨[SyncService.SyncStep.pullBudgets, SyncService.SyncStep.pushExpenses,
        SyncService.SyncStep.pushBudgets], ?_⟩, ?_, ?_⟩ <;>
      simp [SyncService.fullSync, h1]

/-- Witness for the amended C2: at the state `stC2` with a failing expense
fetch, `fullSync` reports failure, no push step ran, and the executed steps
are a prefix of the canonical order. -/
theorem fullSync_sequential_amended_c2_witness :
    SyncService.SyncStep.pushExpenses
        ∉ (SyncService.fullSync false true (fun _ => true) (fun _ => true) "u1" stC2).steps
    ∧ SyncService.SyncStep.pushBudgets
        ∉ (SyncService.fullSync false true (fun _ => true) (fun _ => true) "u1" stC2).steps
    ∧ ∃ rest, (SyncService.fullSync false true (fun _ => true) (fun _ => true) "u1" stC2).steps ++ rest
        = [SyncService.SyncStep.pullExpenses, SyncService.SyncStep.pullBudgets,
           SyncService.SyncStep.pushExpenses, SyncService.SyncStep.pushBudgets] := by
  have h := fullSync_sequential_amended_c2 false true (fun _ => true) (fun _ => true) "u1" stC2
  exact ⟨(h.2.2 rfl).1, (h.2.2 rfl).2, h.1⟩

/-- The upload loop never touches the `syncInProgress` flag. -/
theorem pushExpensesLoop_flag (upOk : String → Bool) :
    ∀ (es : List Expense) (acc : SyncState × Nat),
      (SyncService.pushExpensesLoop upOk es acc).1.syncInProgress = acc.1.syncInProgress := by
  intro es
  induction es with
  | nil => intro acc; rfl
  | cons e es ih =>
    rintro ⟨st, n⟩
    by_cases h : upOk e.id = true
    · simp only [SyncService.pushExpensesLoop]
      rw [if_pos h]
      exact ih _
    · simp only [SyncService.pushExpensesLoop]
      rw [if_neg h]
      exact ih _

/-- After the upload loop runs over a list covering every unsynced record of
the user (with every upload succeeding), every local record of the user is
marked synced. -/
theorem pushExpensesLoop_marks (upOk : String → Bool) (u : String) :
    ∀ (es : List Expense) (acc : SyncState × Nat),
      (∀ e ∈ es, upOk e.id = true) →
      (∀ r ∈ acc.1.store.expenses, r.userId = u → r.synced = false → ∃ e ∈ es, e.id = r.id) →
      ∀ r ∈ (SyncService.pushExpensesLoop upOk es acc).1.store.expenses,
        r.userId = u → r.synced = true := by
  intro es
  induction es with
  | nil =>
    intro acc _ hcov r hr hu
    cases hs : r.synced with
    | true => rfl
    | false =>
      obtain ⟨e, he, _⟩ := hcov r hr hu hs
      exact absurd he (List.not_mem_nil e)
  | cons e es ih =>
    rintro ⟨st, n⟩ hup hcov
    have hupe : upOk e.id = true := hup e (List.mem_cons_self e es)
    simp only [SyncService.pushExpensesLoop, hupe, if_true]
    apply ih
    · intro e' he'
      exact hup e' (List.mem_cons_of_mem e he')
    · intro r hr hu hs
      simp only [ExpenseDB.markAsSynced, ExpenseDB.updateExpense, List.mem_map] at hr
      obtain ⟨r₀, hr₀, hre⟩ := hr
      by_cases hid : r₀.id == e.id
      · rw [if_pos hid] at hre
        subst hre
        simp [applyExpensePatch] at hs
      · rw [if_neg hid] at hre
        subst hre
        obtain ⟨e', he', heid⟩ := hcov r₀ hr₀ hu hs
        rcases List.mem_cons.mp he' with h | h
        · subst h
          exact absurd (beq_iff_eq.mpr heid.symm) hid
        · exact ⟨e', h, heid⟩

/-- Claim C3: if every upload of a push succeeds, the push leaves no
unsynced record of the user, and an immediate second push is a no-op — it
uploads zero records and returns the exact state (local store and remote
stores alike) produced by the first push. -/
theorem push_idempotent_c3 (upOk : String → Bool) (u : String) (st : SyncState)
    (hflag : st.syncInProgress = false)
    (hup : ∀ e ∈ ExpenseDB.getUnsyncedExpenses u st.store, upOk e.id = true) :
    ExpenseDB.getUnsyncedExpenses u (SyncService.syncToFirebase upOk u st).1.store = []
    ∧ SyncService.syncToFirebase upOk u (SyncService.syncToFirebase upOk u st).1
        = ((SyncService.syncToFirebase upOk u st).1, 0) := by
  have hall : ∀ r ∈ (SyncService.syncToFirebase upOk u st).1.store.expenses,
      r.userId = u → r.synced = true := by
    unfold SyncService.syncToFirebase
    rw [if_neg (by simp [hflag])]
    by_cases hemp : (ExpenseDB.getUnsyncedExpenses u st.store).isEmpty
    · rw [if_pos hemp]
      intro r hr hu
      cases hs : r.synced with
      | true => rfl
      | false =>
        exfalso
        have hmem : r ∈ ExpenseDB.getUnsyncedExpenses u st.store := by
          simp [ExpenseDB.getUnsyncedExpenses, List.mem_filter, hr, hu, hs]
        rw [List.isEmpty_iff] at hemp
        rw [hemp] at hmem
        exact absurd hmem (List.not_mem_nil r)
    · rw [if_neg hemp]
      intro r hr hu
      refine pushExpensesLoop_marks upOk u (ExpenseDB.getUnsyncedExpenses u st.store)
        ({ st with syncInProgress := true }, 0) hup ?_ r hr hu
      intro r' hr' hu' hs'
      exact ⟨r', by simp [ExpenseDB.getUnsyncedExpenses, List.mem_filter, hr', hu', hs'], rfl⟩
  have hempty1 : ExpenseDB.getUnsyncedExpenses u (SyncService.syncToFirebase upOk u st).1.store = [] := by
    rw [ExpenseDB.getUnsyncedExpenses, List.filter_eq_nil_iff]
    intro r hr
    by_cases hu : r.userId == u
    · simp [hall r hr (beq_iff_eq.mp hu)]
    · simp [hu]
  have hflag1 : (SyncService.syncToFirebase upOk u st).1.syncInProgress = false := by
    unfold SyncService.syncToFirebase
    rw [if_neg (by simp [hflag])]
    by_cases hemp : (ExpenseDB.getUnsyncedExpenses u st.store).isEmpty
    · rw [if_pos hemp]; exact hflag
    · rw [if_neg hemp]
  have second : ∀ st' : SyncState, st'.syncInProgress = false →
      ExpenseDB.getUnsyncedExpenses u st'.store = [] →
      SyncService.syncToFirebase upOk u st' = (st', 0) := by
    intro st' h1 h2
    unfold SyncService.syncToFirebase
    rw [if_neg (by simp [h1]), if_pos (by simp [h2])]
  exact ⟨hempty1, second _ hflag1 hempty1⟩

/-- Witness for C3: the double push at the concrete state `stC3` (one
unsynced expense, all uploads succeeding). -/
theorem push_idempotent_c3_witness :
    ExpenseDB.getUnsyncedExpenses "u1" (SyncService.syncToFirebase (fun _ => true) "u1" stC3).1.store = []
    ∧ SyncService.syncToFirebase (fun _ => true) "u1"
        (SyncService.syncToFirebase (fun _ => true) "u1" stC3).1
        = ((SyncService.syncToFirebase (fun _ => true) "u1" stC3).1, 0) :=
  push_idempotent_c3 (fun _ => true) "u1" stC3 rfl (by decide)

/-- Inserting into the descending sort permutes the cons. -/
theorem insertByCreatedAtDesc_perm (e : Expense) (l : List Expense) :
    (insertByCreatedAtDesc e l).Perm (e :: l) := by
  induction l with
  | nil => exact List.Perm.refl _
  | cons x xs ih =>
    simp only [insertByCreatedAtDesc]
    by_cases h : x.createdAt < e.createdAt
    · rw [if_pos h]
    · rw [if_neg h]
      exact (ih.cons x).trans (List.Perm.swap e x xs)

/-- The pull's `createdAt`-descending ordering is a permutation of the
fetched records. -/
theorem sortByCreatedAtDesc_perm (l : List Expense) : (sortByCreatedAtDesc l).Perm l := by
  induction l with
  | nil => exact List.Perm.refl _
  | cons x xs ih =>
    simp only [sortByCreatedAtDesc, List.foldr] at ih ⊢
    exact (insertByCreatedAtDesc_perm x _).trans (ih.cons x)

/-- The pull's insertion loop, run over remote records with pairwise
distinct ids none of which collides with a local record unless the id was
pre-computed as present: it appends exactly the records whose id is not in
`localIds`, flagged `synced := true`, and succeeds. -/
theorem pullExpensesLoop_spec (localIds : List String) :
    ∀ (rs : List Expense) (s : LocalStore),
      ((rs.map (fun r => r.id)).Nodup) →
      (∀ r ∈ rs, localIds.contains r.id = false → ∀ e ∈ s.expenses, e.id ≠ r.id) →
      SyncService.pullExpensesLoop localIds rs s
        = ({ s with expenses := s.expenses ++ (rs.filter (fun r => !localIds.contains r.id)).map (fun r => { r with synced := true }) }, true) := by
  intro rs
  induction rs with
  | nil => intro s _ _; simp [SyncService.pullExpensesLoop]
  | cons r rs ih =>
    intro s hnd hpre
    by_cases hc : localIds.contains r.id = true
    · simp only [SyncService.pullExpensesLoop]
      rw [if_pos hc, List.filter_cons_of_neg (by simpa using hc)]
      exact ih s (List.Nodup.of_cons hnd) (fun r' hr' => hpre r' (List.mem_cons_of_mem r hr'))
    · have hcf : localIds.contains r.id = false := by simpa using hc
      have hfresh : ∀ e ∈ s.expenses, e.id ≠ r.id := hpre r (List.mem_cons_self r rs) hcf
      have hadd : ExpenseDB.addExpense { r with synced := true } s
          = ({ s with expenses := s.expenses ++ [{ r with synced := true }] }, true) := by
        have hok : s.expenses.any (fun e => e.id == ({ r with synced := true } : Expense).id) = false := by
          simp only [List.any_eq_false]
          intro e he
          simpa using hfresh e he
        simp [ExpenseDB.addExpense, hok]
      simp only [SyncService.pullExpensesLoop]
      rw [if_neg hc, hadd]
      simp only []
      have hnd' : ((rs.map (fun x => x.id)).Nodup) := List.Nodup.of_cons hnd
      have hhead : r.id ∉ rs.map (fun x => x.id) := by
        have := hnd
        simp only [List.map_cons, List.nodup_cons] at this
        exact this.1
      have hpre' : ∀ r' ∈ rs, localIds.contains r'.id = false →
          ∀ e ∈ s.expenses ++ [{ r with synced := true }], e.id ≠ r'.id := by
        intro r' hr' hcont e he
        rcases List.mem_append.mp he with h | h
        · exact hpre r' (List.mem_cons_of_mem r hr') hcont e h
        · rcases List.mem_singleton.mp h with rfl
          intro hcontra
          exact hhead (hcontra ▸ List.mem_map_of_mem (fun x => x.id) hr')
      rw [ih _ hnd' hpre', List.filter_cons_of_pos (by simpa using hcf)]
      simp [List.append_assoc]

/-- Claim C1: the pull is additive-only — when the remote set (all ids
distinct, no cross-owner id collision) is pulled, the local table afterwards
is exactly the old table (every record byte-for-byte unchanged, none
deleted) followed by exactly those remote records of the owner whose id was
not already a local id of the owner, each inserted with `synced := true`;
budgets, alerts and the remote stores are untouched. -/
theorem pull_is_additive_c1 (u : String) (st : SyncState)
    (hR : ((st.remoteExpenses.filter (fun r => r.userId == u)).map (fun r => r.id)).Nodup)
    (hcross : ∀ r ∈ st.remoteExpenses.filter (fun r => r.userId == u),
      ∀ e ∈ st.store.expenses, r.id = e.id → e.userId = u) :
    ∃ news : List Expense,
      SyncService.syncFromFirebase true u st
        = ({ st with store := { st.store with expenses := st.store.expenses ++ news } }, true)
      ∧ news.Perm (((st.remoteExpenses.filter (fun r => r.userId == u)).filter
            (fun r => !((ExpenseDB.getExpenses u st.store).map (fun e => e.id)).contains r.id)).map
            (fun r => { r with synced := true })) := by
  set R := st.remoteExpenses.filter (fun r => r.userId == u) with hRdef
  set localIds := (ExpenseDB.getExpenses u st.store).map (fun e => e.id) with hLdef
  have hperm : (sortByCreatedAtDesc R).Perm R := sortByCreatedAtDesc_perm R
  have hnd : ((sortByCreatedAtDesc R).map (fun r => r.id)).Nodup :=
    (List.Perm.nodup_iff (hperm.map _)).mpr hR
  have hpre : ∀ r ∈ sortByCreatedAtDesc R, localIds.contains r.id = false →
      ∀ e ∈ st.store.expenses, e.id ≠ r.id := by
    intro r hr hcont e he heq
    have hrR : r ∈ R := hperm.subset hr
    have huser : e.userId = u := hcross r hrR e he heq.symm
    have hmem : e.id ∈ localIds := by
      rw [hLdef]
      exact List.mem_map_of_mem _ (by simp [ExpenseDB.getExpenses, List.mem_filter, he, huser])
    rw [heq] at hmem
    have h2 : localIds.contains r.id = true := by
      simpa [List.contains, List.elem_iff] using hmem
    rw [h2] at hcont
    simp at hcont
  have hloop := pullExpensesLoop_spec localIds (sortByCreatedAtDesc R) st.store hnd hpre
  refine ⟨((sortByCreatedAtDesc R).filter (fun r => !localIds.contains r.id)).map
      (fun r => { r with synced := true }), ?_, ?_⟩
  · unfold SyncService.syncFromFirebase
    rw [if_pos rfl]
    simp only [← hRdef, ← hLdef, hloop]
  · exact (hperm.filter _).map _

/-- Witness for C1: pulling `stC1.remoteExpenses` (a conflicting copy of
the local id `"a"` and a new id `"b"`) leaves the local record untouched
and appends exactly the `synced := true` copy of the new record. -/
theorem pull_is_additive_c1_witness :
    ∃ news : List Expense,
      SyncService.syncFromFirebase true "u1" stC1
        = ({ stC1 with store := { stC1.store with expenses := stC1.store.expenses ++ news } }, true)
      ∧ news.Perm (((stC1.remoteExpenses.filter (fun r => r.userId == "u1")).filter
            (fun r => !((ExpenseDB.getExpenses "u1" stC1.store).map (fun e => e.id)).contains r.id)).map
            (fun r => { r with synced := true })) :=
  pull_is_additive_c1 "u1" stC1 (by decide) (by decide)

/-- `find?` skips a suffix on which the predicate is everywhere false. -/
theorem find?_append_right_none {α} (p : α → Bool) (l₁ l₂ : List α)
    (h : ∀ a ∈ l₂, p a = false) : List.find? p (l₁ ++ l₂) = List.find? p l₁ := by
  induction l₁ with
  | nil =>
    simp only [List.nil_append, List.find?_nil]
    exact List.find?_eq_none.mpr (fun a ha => by simp [h a ha])
  | cons x xs ih =>
    by_cases hx : p x
    · simp [List.find?, hx]
    · have hx' : p x = false := by simpa using hx
      simp only [List.cons_append, List.find?, hx']
      exact ih

/-- In a table with pairwise distinct ids, looking a stored budget up by
its own id returns that budget. -/
theorem find?_id_self (l : List BudgetLimit) (b : BudgetLimit)
    (hnd : (l.map (fun x => x.id)).Nodup) (hb : b ∈ l) :
    l.find? (fun x => x.id == b.id) = some b := by
  induction l with
  | nil => cases hb
  | cons x xs ih =>
    rcases List.mem_cons.mp hb with rfl | hbx
    · simp [List.find?]
    · have hxid : x.id ≠ b.id := by
        simp only [List.map_cons, List.nodup_cons] at hnd
        intro hcontra
        exact hnd.1 (hcontra ▸ List.mem_map_of_mem (fun y => y.id) hbx)
      have hpred : (x.id == b.id) = false := by simpa using hxid
      have hnd' : (xs.map (fun y => y.id)).Nodup := by
        simp only [List.map_cons, List.nodup_cons] at hnd
        exact hnd.2
      simp only [List.find?, hpred]
      exact ih hnd' hbx

/-- `getRecentAlert` returns nothing exactly when no undismissed alert of
the same `(budgetId, type)` was created within the window. -/
theorem getRecentAlert_eq_none_iff (bid : String) (t : AlertType) (hrs : ℚ) (nowT : Time)
    (s : LocalStore) :
    BudgetDB.getRecentAlert bid t hrs nowT s = none
      ↔ ¬∃ a ∈ s.alerts, a.budgetId = bid ∧ a.type = t ∧ a.dismissed = false
          ∧ nowT - hrs < a.createdAt := by
  simp only [BudgetDB.getRecentAlert, List.find?_eq_none, Bool.and_eq_true, beq_iff_eq,
    Bool.not_eq_true', decide_eq_true_eq, not_exists]
  aesop

/-- Adding an alert with a fresh id succeeds and appends it. -/
theorem addAlert_fresh (a : BudgetAlert) (s : LocalStore)
    (h : a.id ∉ s.alerts.map (fun x => x.id)) :
    BudgetDB.addAlert a s = ({ s with alerts := s.alerts ++ [a] }, true) := by
  have hany : s.alerts.any (fun r => r.id == a.id) = false := by
    simp only [List.any_eq_false]
    intro r hr
    simp only [beq_iff_eq]
    intro heq
    exact h (heq ▸ List.mem_map_of_mem (fun x => x.id) hr)
  simp [BudgetDB.addAlert, hany]

/-- The alert loop skips a progress entry whose budget id is absent. -/
theorem checkLoop_cons_noBudget (u : String) (now : DateTime) (freshId : Nat → String)
    (p : BudgetProgress) (ps : List BudgetProgress) (acc : List BudgetAlert) (s : LocalStore)
    (h : BudgetDB.getBudgetById p.budgetId s = none) :
    BudgetService.checkLoop u now freshId (p :: ps) acc s
      = BudgetService.checkLoop u now freshId ps acc s := by
  simp [BudgetService.checkLoop, h]

/-- The alert loop skips a progress entry that classifies into no band. -/
theorem checkLoop_cons_noType (u : String) (now : DateTime) (freshId : Nat → String)
    (p : BudgetProgress) (ps : List BudgetProgress) (acc : List BudgetAlert) (s : LocalStore)
    (b : BudgetLimit) (hb : BudgetDB.getBudgetById p.budgetId s = some b)
    (ht : BudgetService.alertTypeFor p.percentage p.warningThreshold = none) :
    BudgetService.checkLoop u now freshId (p :: ps) acc s
      = BudgetService.checkLoop u now freshId ps acc s := by
  simp [BudgetService.checkLoop, hb, ht]

/-- The alert loop suppresses a duplicate when a recent undismissed alert
of the same `(budgetId, type)` exists. -/
theorem checkLoop_cons_recent (u : String) (now : DateTime) (freshId : Nat → String)
    (p : BudgetProgress) (ps : List BudgetProgress) (acc : List BudgetAlert) (s : LocalStore)
    (b : BudgetLimit) (t : AlertType) (a₀ : BudgetAlert)
    (hb : BudgetDB.getBudgetById p.budgetId s = some b)
    (ht : BudgetService.alertTypeFor p.percentage p.warningThreshold = some t)
    (hr : BudgetDB.getRecentAlert b.id t 24 now.ts s = some a₀) :
    BudgetService.checkLoop u now freshId (p :: ps) acc s
      = BudgetService.checkLoop u now freshId ps acc s := by
  simp [BudgetService.checkLoop, hb, ht, hr]

/-- The alert loop persists a new alert when the budget exists, a band is
hit, and no recent duplicate suppresses it. -/
theorem checkLoop_cons_create (u : String) (now : DateTime) (freshId : Nat → String)
    (p : BudgetProgress) (ps : List BudgetProgress) (acc : List BudgetAlert) (s : LocalStore)
    (b : BudgetLimit) (t : AlertType)
    (hb : BudgetDB.getBudgetById p.budgetId s = some b)
    (ht : BudgetService.alertTypeFor p.percentage p.warningThreshold = some t)
    (hr : BudgetDB.getRecentAlert b.id t 24 now.ts s = none)
    (hfresh : (BudgetService.mkAlert (freshId acc.length) u b t p now.ts).id
      ∉ s.alerts.map (fun x => x.id)) :
    BudgetService.checkLoop u now freshId (p :: ps) acc s
      = BudgetService.checkLoop u now freshId ps
          (acc ++ [BudgetService.mkAlert (freshId acc.length) u b t p now.ts])
          { s with alerts := s.alerts ++ [BudgetService.mkAlert (freshId acc.length) u b t p now.ts] } := by
  have hadd := addAlert_fresh (BudgetService.mkAlert (freshId acc.length) u b t p now.ts) s hfresh
  simp [BudgetService.checkLoop, hb, ht, hr, hadd]

/-- Invariant of the alert loop: run over progress entries with pairwise
distinct budget ids and fresh generated alert ids, it appends exactly one
alert per entry whose budget exists, classifies into a band, and has no
recent undismissed duplicate in the original store — and nothing else. -/
theorem checkLoop_spec (u : String) (now : DateTime) (freshId : Nat → String) (s₀ : LocalStore)
    (N : Nat)
    (hf1 : ∀ i, i < N → freshId i ∉ s₀.alerts.map (fun a => a.id))
    (hf2 : ∀ i, i < N → ∀ j, j < N → freshId i = freshId j → i = j) :
    ∀ (ps : List BudgetProgress) (acc : List BudgetAlert) (scur : LocalStore),
      scur.budgets = s₀.budgets →
      scur.expenses = s₀.expenses →
      scur.alerts = s₀.alerts ++ acc →
      acc.map (fun a => a.id) = (List.range acc.length).map freshId →
      acc.length + ps.length ≤ N →
      (∀ a ∈ acc, ∀ p ∈ ps, a.budgetId ≠ p.budgetId) →
      (ps.map (fun p => p.budgetId)).Nodup →
      ∃ out : List BudgetAlert,
        BudgetService.checkLoop u now freshId ps acc scur
          = (acc ++ out, { scur with alerts := scur.alerts ++ out }, true)
        ∧ (∀ a ∈ out, ∃ p ∈ ps, a.budgetId = p.budgetId)
        ∧ (∀ p ∈ ps, ∀ t : AlertType,
            ((∃ a ∈ out, a.budgetId = p.budgetId ∧ a.type = t) ↔
              ((BudgetDB.getBudgetById p.budgetId s₀).isSome = true
               ∧ BudgetService.alertTypeFor p.percentage p.warningThreshold = some t
               ∧ BudgetDB.getRecentAlert p.budgetId t 24 now.ts s₀ = none)))
        ∧ (∀ p ∈ ps, (out.filter (fun a => a.budgetId == p.budgetId)).length ≤ 1) := by
  intro ps
  induction ps with
  | nil =>
    intro acc scur _ _ _ _ _ _ _
    refine ⟨[], by simp [BudgetService.checkLoop], ?_, ?_, ?_⟩
    · intro a ha; exact absurd ha (List.not_mem_nil a)
    · intro p hp; exact absurd hp (List.not_mem_nil p)
    · intro p hp; exact absurd hp (List.not_mem_nil p)
  | cons p ps ih =>
    intro acc scur h1 h2 h3 h4 h5 h6 h7
    have hlN : acc.length < N := by
      simp only [List.length_cons] at h5
      omega
    have h5tail : acc.length + ps.length ≤ N := by
      simp only [List.length_cons] at h5
      omega
    have hnodup_head : p.budgetId ∉ ps.map (fun x => x.budgetId) := by
      have h := h7
      simp only [List.map_cons, List.nodup_cons] at h
      exact h.1
    have h7tail : (ps.map (fun x => x.budgetId)).Nodup := by
      have h := h7
      simp only [List.map_cons, List.nodup_cons] at h
      exact h.2
    have hbudEq : BudgetDB.getBudgetById p.budgetId scur = BudgetDB.getBudgetById p.budgetId s₀ := by
      simp [BudgetDB.getBudgetById, h1]
    rcases hfind : BudgetDB.getBudgetById p.budgetId s₀ with _ | b
    · -- budget absent: the entry is skipped
      rw [checkLoop_cons_noBudget u now freshId p ps acc scur (hbudEq.trans hfind)]
      obtain ⟨out, heq, hmem, hchar, hcnt⟩ := ih acc scur h1 h2 h3 h4 h5tail
        (fun a ha q hq => h6 a ha q (List.mem_cons_of_mem p hq)) h7tail
      have hdis : ∀ a ∈ out, a.budgetId ≠ p.budgetId := by
        intro a ha heqa
        obtain ⟨q, hq, he⟩ := hmem a ha
        exact hnodup_head ((heqa ▸ he : p.budgetId = q.budgetId) ▸ List.mem_map_of_mem _ hq)
      refine ⟨out, heq, ?_, ?_, ?_⟩
      · intro a ha
        obtain ⟨q, hq, he⟩ := hmem a ha
        exact ⟨q, List.mem_cons_of_mem p hq, he⟩
      · intro q hq t
        rcases List.mem_cons.mp hq with rfl | hq'
        · constructor
          · rintro ⟨a, ha, hbidx, _⟩
            exact absurd hbidx (hdis a ha)
          · rintro ⟨hcontra, -, -⟩
            rw [hfind] at hcontra
            simp at hcontra
        · exact hchar q hq' t
      · intro q hq
        rcases List.mem_cons.mp hq with rfl | hq'
        · have : out.filter (fun a => a.budgetId == q.budgetId) = [] :=
            List.filter_eq_nil_iff.mpr (fun a ha => by simp [hdis a ha])
          simp [this]
        · exact hcnt q hq'
    · have hpredb := List.find?_some (show s₀.budgets.find? (fun x => x.id == p.budgetId) = some b from hfind)
      have hbid : b.id = p.budgetId := by simpa using hpredb
      rcases hat : BudgetService.alertTypeFor p.percentage p.warningThreshold with _ | t₀
      · -- no band hit: the entry is skipped
        rw [checkLoop_cons_noType u now freshId p ps acc scur b (hbudEq.trans hfind) hat]
        obtain ⟨out, heq, hmem, hchar, hcnt⟩ := ih acc scur h1 h2 h3 h4 h5tail
          (fun a ha q hq => h6 a ha q (List.mem_cons_of_mem p hq)) h7tail
        have hdis : ∀ a ∈ out, a.budgetId ≠ p.budgetId := by
          intro a ha heqa
          obtain ⟨q, hq, he⟩ := hmem a ha
          exact hnodup_head ((heqa ▸ he : p.budgetId = q.budgetId) ▸ List.mem_map_of_mem _ hq)
        refine ⟨out, heq, ?_, ?_, ?_⟩
        · intro a ha
          obtain ⟨q, hq, he⟩ := hmem a ha
          exact ⟨q, List.mem_cons_of_mem p hq, he⟩
        · intro q hq t
          rcases List.mem_cons.mp hq with rfl | hq'
          · constructor
            · rintro ⟨a, ha, hbidx, _⟩
              exact absurd hbidx (hdis a ha)
            · rintro ⟨-, hcontra, -⟩
              rw [hat] at hcontra
              cases hcontra
          · exact hchar q hq' t
        · intro q hq
          rcases List.mem_cons.mp hq with rfl | hq'
          · have : out.filter (fun a => a.budgetId == q.budgetId) = [] :=
              List.filter_eq_nil_iff.mpr (fun a ha => by simp [hdis a ha])
            simp [this]
          · exact hcnt q hq'
      · -- a band is hit; compare `getRecentAlert` on the current store with
        -- the original store (the accumulated alerts are for other budgets)
        have hrecEq : BudgetDB.getRecentAlert b.id t₀ 24 now.ts scur
            = BudgetDB.getRecentAlert b.id t₀ 24 now.ts s₀ := by
          simp only [BudgetDB.getRecentAlert, h3]
          apply find?_append_right_none
          intro a ha
          have hne : a.budgetId ≠ b.id := by
            rw [hbid]
            exact h6 a ha p (List.mem_cons_self p ps)
          simp [hne]
        rcases hrec : BudgetDB.getRecentAlert b.id t₀ 24 now.ts s₀ with _ | a₀
        · -- no recent duplicate: persist a new alert and continue
          have hfreshA : (BudgetService.mkAlert (freshId acc.length) u b t₀ p now.ts).id
              ∉ scur.alerts.map (fun x => x.id) := by
            rw [h3]
            simp only [List.map_append, List.mem_append]
            rintro (hmem | hmem)
            · exact hf1 acc.length hlN hmem
            · rw [h4] at hmem
              simp only [List.mem_map, List.mem_range] at hmem
              obtain ⟨i, hi, hie⟩ := hmem
              have : i = acc.length := hf2 i (hi.trans hlN) acc.length hlN hie
              omega
          rw [checkLoop_cons_create u now freshId p ps acc scur b t₀ (hbudEq.trans hfind) hat
            (hrecEq.trans hrec) hfreshA]
          have h6' : ∀ x ∈ acc ++ [BudgetService.mkAlert (freshId acc.length) u b t₀ p now.ts],
              ∀ q ∈ ps, x.budgetId ≠ q.budgetId := by
            intro x hx q hq
            rcases List.mem_append.mp hx with hx' | hx'
            · exact h6 x hx' q (List.mem_cons_of_mem p hq)
            · rcases List.mem_singleton.mp hx' with rfl
              show b.id ≠ q.budgetId
              rw [hbid]
              intro hc
              exact hnodup_head (hc ▸ List.mem_map_of_mem _ hq)
          obtain ⟨out', heq', hmem', hchar', hcnt'⟩ :=
            ih (acc ++ [BudgetService.mkAlert (freshId acc.length) u b t₀ p now.ts])
              { scur with alerts := scur.alerts ++ [BudgetService.mkAlert (freshId acc.length) u b t₀ p now.ts] }
              h1 h2
              (by rw [show ({ scur with alerts := scur.alerts ++ [BudgetService.mkAlert (freshId acc.length) u b t₀ p now.ts] } : LocalStore).alerts = scur.alerts ++ [BudgetService.mkAlert (freshId acc.length) u b t₀ p now.ts] from rfl, h3, List.append_assoc])
              (by simp [List.map_append, h4, List.length_append, List.range_succ,
                BudgetService.mkAlert])
              (by simp only [List.length_cons] at h5
                  simp only [List.length_append, List.length_singleton]
                  omega)
              h6' h7tail
          refine ⟨BudgetService.mkAlert (freshId acc.length) u b t₀ p now.ts :: out', ?_, ?_, ?_, ?_⟩
          · rw [heq']
            simp [List.append_assoc]
          · intro x hx
            rcases List.mem_cons.mp hx with rfl | hx'
            · exact ⟨p, List.mem_cons_self p ps, hbid⟩
            · obtain ⟨q, hq, he⟩ := hmem' x hx'
              exact ⟨q, List.mem_cons_of_mem p hq, he⟩
          · intro q hq t
            rcases List.mem_cons.mp hq with rfl | hq'
            · by_cases hteq : t = t₀
              · subst hteq
                constructor
                · intro _
                  exact ⟨by rw [hfind]; rfl, hat, by rw [← hbid]; exact hrec⟩
                · intro _
                  exact ⟨_, List.mem_cons_self _ _, hbid, rfl⟩
              · constructor
                · rintro ⟨x, hx, hbidx, htx⟩
                  rcases List.mem_cons.mp hx with rfl | hx'
                  · exact absurd (show t = t₀ from htx.symm) hteq
                  · obtain ⟨q', hq2, he⟩ := hmem' x hx'
                    exfalso
                    have hmm : q.budgetId ∈ ps.map (fun y => y.budgetId) := by
                      rw [hbidx.symm.trans he]
                      exact List.mem_map_of_mem _ hq2
                    exact hnodup_head hmm
                · rintro ⟨-, hcontra, -⟩
                  rw [hat] at hcontra
                  exact absurd (Option.some.inj hcontra).symm hteq
            · have hstep : (∃ x ∈ BudgetService.mkAlert (freshId acc.length) u b t₀ p now.ts :: out',
                  x.budgetId = q.budgetId ∧ x.type = t)
                  ↔ (∃ x ∈ out', x.budgetId = q.budgetId ∧ x.type = t) := by
                constructor
                · rintro ⟨x, hx, h1x, h2x⟩
                  rcases List.mem_cons.mp hx with rfl | hx'
                  · exfalso
                    have hmm : p.budgetId ∈ ps.map (fun y => y.budgetId) := by
                      rw [hbid.symm.trans h1x]
                      exact List.mem_map_of_mem _ hq'
                    exact hnodup_head hmm
                  · exact ⟨x, hx', h1x, h2x⟩
                · rintro ⟨x, hx, hh⟩
                  exact ⟨x, List.mem_cons_of_mem _ hx, hh⟩
              rw [hstep]
              exact hchar' q hq' t
          · intro q hq
            rcases List.mem_cons.mp hq with rfl | hq'
            · have hnil : out'.filter (fun x => x.budgetId == q.budgetId) = [] := by
                apply List.filter_eq_nil_iff.mpr
                intro x hx
                obtain ⟨q', hq2, he⟩ := hmem' x hx
                simp only [beq_iff_eq]
                intro hc
                exact hnodup_head ((hc.symm.trans he : q.budgetId = q'.budgetId)
                  ▸ List.mem_map_of_mem _ hq2)
              rw [List.filter_cons_of_pos (by simp [BudgetService.mkAlert, hbid]), hnil]
              simp
            · have hpredA : ((BudgetService.mkAlert (freshId acc.length) u b t₀ p now.ts).budgetId
                  == q.budgetId) = false := by
                simp only [beq_eq_false_iff_ne, ne_eq]
                show ¬b.id = q.budgetId
                rw [hbid]
                intro hc
                exact hnodup_head (hc ▸ List.mem_map_of_mem _ hq')
              rw [List.filter_cons_of_neg (by simp [hpredA])]
              exact hcnt' q hq'
        · -- a recent undismissed duplicate exists: suppress
          rw [checkLoop_cons_recent u now freshId p ps acc scur b t₀ a₀ (hbudEq.trans hfind) hat
            (hrecEq.trans hrec)]
          obtain ⟨out, heq, hmem, hchar, hcnt⟩ := ih acc scur h1 h2 h3 h4 h5tail
            (fun a ha q hq => h6 a ha q (List.mem_cons_of_mem p hq)) h7tail
          have hdis : ∀ a ∈ out, a.budgetId ≠ p.budgetId := by
            intro a ha heqa
            obtain ⟨q, hq, he⟩ := hmem a ha
            exact hnodup_head ((heqa ▸ he : p.budgetId = q.budgetId) ▸ List.mem_map_of_mem _ hq)
          refine ⟨out, heq, ?_, ?_, ?_⟩
          · intro a ha
            obtain ⟨q, hq, he⟩ := hmem a ha
            exact ⟨q, List.mem_cons_of_mem p hq, he⟩
          · intro q hq t
            rcases List.mem_cons.mp hq with rfl | hq'
            · constructor
              · rintro ⟨a, ha, hbidx, _⟩
                exact absurd hbidx (hdis a ha)
              · rintro ⟨-, hcontra, hrec'⟩
                rw [hat] at hcontra
                rcases Option.some.inj hcontra with rfl
                rw [← hbid, hrec] at hrec'
                cases hrec'
            · exact hchar q hq' t
          · intro q hq
            rcases List.mem_cons.mp hq with rfl | hq'
            · have : out.filter (fun a => a.budgetId == q.budgetId) = [] :=
                List.filter_eq_nil_iff.mpr (fun a ha => by simp [hdis a ha])
              simp [this]
            · exact hcnt q hq'

/-- Claim C5: for an enabled budget of the owner, an evaluation persists
(and returns) a new alert of kind `k` exactly when the budget classifies
into `k` and no undismissed alert of the same `(budgetId, kind)` was created
within the preceding 24 hours; when a recent undismissed alert exists,
nothing is persisted for that budget, and at most one alert per budget is
appended in a single evaluation.  The returned alerts are precisely what is
appended to the store. -/
theorem alert_dedup_window_c5 (u : String) (now : DateTime) (freshId : Nat → String)
    (s : LocalStore) (b : BudgetLimit) (k : AlertType)
    (hids : (s.budgets.map (fun x => x.id)).Nodup)
    (hf1 : ∀ i, i < (BudgetService.getBudgetProgress u now s).length →
      freshId i ∉ s.alerts.map (fun a => a.id))
    (hf2 : ∀ i, i < (BudgetService.getBudgetProgress u now s).length →
      ∀ j, j < (BudgetService.getBudgetProgress u now s).length → freshId i = freshId j → i = j)
    (hb : b ∈ s.budgets) (hbu : b.userId = u) (hben : b.enabled = true) :
    ∃ newAlerts : List BudgetAlert,
      BudgetService.checkBudgetsAndCreateAlerts u now freshId s
        = (newAlerts, { s with alerts := s.alerts ++ newAlerts }, true)
      ∧ ((∃ a ∈ newAlerts, a.budgetId = b.id ∧ a.type = k) ↔
          (BudgetService.alertTypeFor
              (BudgetService.progressOf (ExpenseDB.getExpenses u s) now b).percentage
              b.warningThreshold = some k
           ∧ ¬∃ a ∈ s.alerts, a.budgetId = b.id ∧ a.type = k ∧ a.dismissed = false
                ∧ now.ts - 24 < a.createdAt))
      ∧ (newAlerts.filter (fun a => a.budgetId == b.id)).length ≤ 1 := by
  have hpsmap : (BudgetService.getBudgetProgress u now s).map (fun p => p.budgetId)
      = (BudgetDB.getActiveBudgets u s).map (fun x => x.id) := by
    simp only [BudgetService.getBudgetProgress, List.map_map]
    rfl
  have hnodups : ((BudgetService.getBudgetProgress u now s).map (fun p => p.budgetId)).Nodup := by
    rw [hpsmap]
    exact List.Nodup.sublist (List.Sublist.map _ (List.filter_sublist s.budgets)) hids
  obtain ⟨out, heq, hmem, hchar, hcnt⟩ :=
    checkLoop_spec u now freshId s (BudgetService.getBudgetProgress u now s).length hf1 hf2
      (BudgetService.getBudgetProgress u now s) [] s rfl rfl (List.append_nil s.alerts).symm rfl
      (by simp) (fun a ha => absurd ha (List.not_mem_nil a)) hnodups
  have hbactive : b ∈ BudgetDB.getActiveBudgets u s := by
    simp [BudgetDB.getActiveBudgets, List.mem_filter, hb, hbu, hben]
  have hpb : BudgetService.progressOf (ExpenseDB.getExpenses u s) now b
      ∈ BudgetService.getBudgetProgress u now s := List.mem_map_of_mem _ hbactive
  refine ⟨out, ?_, ?_, ?_⟩
  · rw [show BudgetService.checkBudgetsAndCreateAlerts u now freshId s
        = BudgetService.checkLoop u now freshId (BudgetService.getBudgetProgress u now s) [] s
        from rfl, heq]
    simp
  · have hchar' := hchar _ hpb k
    have hbidp : (BudgetService.progressOf (ExpenseDB.getExpenses u s) now b).budgetId = b.id := rfl
    have hwt : (BudgetService.progressOf (ExpenseDB.getExpenses u s) now b).warningThreshold
        = b.warningThreshold := rfl
    rw [hbidp, hwt] at hchar'
    have hfound : BudgetDB.getBudgetById b.id s = some b := find?_id_self s.budgets b hids hb
    rw [hfound, getRecentAlert_eq_none_iff] at hchar'
    simpa using hchar'
  · have hcnt' := hcnt _ hpb
    have hbidp : (BudgetService.progressOf (ExpenseDB.getExpenses u s) now b).budgetId = b.id := rfl
    rw [hbidp] at hcnt'
    exact hcnt'

/-- Witness for C5: evaluating the 85%-spend budget `bC5`
(`warningThreshold = 80`) against an empty alert store. -/
theorem alert_dedup_window_c5_witness :
    ∃ newAlerts : List BudgetAlert,
      BudgetService.checkBudgetsAndCreateAlerts "u1" nowC5 freshC5 sC5
        = (newAlerts, { sC5 with alerts := sC5.alerts ++ newAlerts }, true)
      ∧ ((∃ a ∈ newAlerts, a.budgetId = bC5.id ∧ a.type = AlertType.warning) ↔
          (BudgetService.alertTypeFor
              (BudgetService.progressOf (ExpenseDB.getExpenses "u1" sC5) nowC5 bC5).percentage
              bC5.warningThreshold = some AlertType.warning
           ∧ ¬∃ a ∈ sC5.alerts, a.budgetId = bC5.id ∧ a.type = AlertType.warning
                ∧ a.dismissed = false ∧ nowC5.ts - 24 < a.createdAt))
      ∧ (newAlerts.filter (fun a => a.budgetId == bC5.id)).length ≤ 1 :=
  alert_dedup_window_c5 "u1" nowC5 freshC5 sC5 bC5 AlertType.warning (by decide) (by decide)
    (by decide) (by simp [sC5]) rfl rfl

end ExpenseTracker
